import Mathlib

/-!
# Skeleton provider: configuration validation

A shallow embedding of `provider/skeleton/config.go` and `provider/skeleton/provider.go`.
Go maps with string keys are total functions `String → Option Value`; an absent key
(Go `nil` on lookup) is `none`.  Functions that return `(value, error)` return `Except String _`,
the string being the text of the Go error.

The packages `environs/config` and `schema`, which the provider calls, are not part of the
translated sources; the pieces that are used are modelled from the specification and are marked
as such.  The order in which Go visits the keys of a map in a `range` statement is unspecified,
therefore every traversal of the `configFields` map takes the order as an explicit argument.
-/

namespace skeleton

/-! ## Attribute values and mappings -/

/-- Weakly typed attribute value (the Go `interface{}` stored in a config map): a string, a
number or a boolean. -/
inductive Value where
  | str (s : String)
  | num (n : Int)
  | bool (b : Bool)
  deriving DecidableEq, Repr

/-- Attribute mapping `map[string]interface{}`; `none` is an absent key. -/
abbrev Attrs := String → Option Value

/-- The empty map. -/
def emptyAttrs : Attrs := fun _ => none

/-- Map update `m[k] = v`. -/
def setAttr (m : Attrs) (k : String) (v : Value) : Attrs :=
  fun x => if x = k then some v else m x

/-- Copy of `base` in which every entry of `over` has been assigned:
`for k, v := range over { base[k] = v }`. -/
def mergeAttrs (base over : Attrs) : Attrs :=
  fun k => match over k with
    | some v => some v
    | none => base k

/-- Go formatting verb `%v` of an interface value (`<nil>` for the nil interface). -/
def fmtV : Option Value → String
  | none => "<nil>"
  | some (.str s) => s
  | some (.num n) => toString n
  | some (.bool b) => toString b

/-! ## The schema package (external) -/

/-- Modelled from the spec: the rendering of the offending value in a `TypeMismatch` or
`MissingField` error of the schema package, `nothing` for an absent value and otherwise the
type and the value (`%T(%#v)`). -/
def schema.gotDescr : Option Value → String
  | none => "nothing"
  | some (.str s) => "string(" ++ s.quote ++ ")"
  | some (.num n) => "int(" ++ toString n ++ ")"
  | some (.bool b) => "bool(" ++ toString b ++ ")"

/-- Field type declarations of the schema package.  The provider only uses `schema.String()`,
which is the constructor `string`. -/
inductive schema.Checker where
  | string
  deriving DecidableEq, Repr

/-- Modelled from the spec: the type check of one declared field (`Coerce` of a checker).
`schema.String()` accepts exactly the string values and returns them unchanged; an absent
value is `MissingField` (`expected string, got nothing`) and any other value `TypeMismatch`. -/
def schema.Checker.Coerce : schema.Checker → Option Value → (path : String) →
    Except String Value
  | .string, some (.str s), _ => .ok (.str s)
  | .string, v, path => .error (path ++ ": expected string, got " ++ schema.gotDescr v)

/-- Modelled from the spec: the value the merge engine checks for the declared field `k`, the
one of the raw mapping or, when the field is absent there, its default (if any). -/
def schema.fieldValue (defaults : List (String × Value)) (attrs : Attrs) (k : String) :
    Option Value :=
  match attrs k with
  | some v => some v
  | none => defaults.lookup k

/-- Modelled from the spec: the Config Merge Engine on the declared fields (`Coerce` of
`schema.FieldMap(fields, defaults)`).  The declared fields are visited in the order `keys`;
for each one the value is the one of `attrs` or, when absent, its default, and is type checked;
the first failing check is returned, otherwise the checked value is stored in the output map. -/
def schema.fieldMapCoerce (fields : List (String × schema.Checker))
    (defaults : List (String × Value)) (attrs : Attrs) : List String → Attrs → Except String Attrs
  | [], out => .ok out
  | k :: ks, out =>
    match fields.lookup k with
    | none => schema.fieldMapCoerce fields defaults attrs ks out
    | some checker =>
      match checker.Coerce (schema.fieldValue defaults attrs k) k with
      | .error err => .error err
      | .ok newv => schema.fieldMapCoerce fields defaults attrs ks (setAttr out k newv)

/-! ## The environs/config package (external) -/

/-- Modelled from the spec: the generic config object of the external configuration subsystem,
seen through its attributes (`AllAttrs`). -/
structure Config where
  attrs : Attrs

/-- Modelled from the spec: the external configuration subsystem.  `isGeneric` tells the keys
owned by the generic schema (all other keys are provider specific, the unknown attributes),
`Validate` is the package level structural check `config.Validate(cfg, old)` (`none` is a nil
error) and `rejects` the check made when a config object is built from an attribute mapping
(`config.New`, reached through `Apply`). -/
structure External where
  isGeneric : String → Bool
  Validate : Config → Option Config → Option String
  rejects : Attrs → Option String

/-- Modelled from the spec: `AllAttrs()`, every attribute of the config. -/
def Config.AllAttrs (c : Config) : Attrs := c.attrs

/-- Modelled from the spec: `UnknownAttrs()`, the provider specific attributes, which are the
attributes that the generic schema does not own. -/
def Config.UnknownAttrs (X : External) (c : Config) : Attrs :=
  fun k => if X.isGeneric k then none else c.attrs k

/-- Modelled from the spec: `config.New(config.NoDefaults, attrs)`. -/
def config.New (X : External) (attrs : Attrs) : Except String Config :=
  match X.rejects attrs with
  | some err => .error err
  | none => .ok ⟨attrs⟩

/-- Modelled from the spec: `Apply(attrs)`, a new configuration that has the attributes of `c`
plus `attrs`. -/
def Config.Apply (X : External) (c : Config) (attrs : Attrs) : Except String Config :=
  config.New X (mergeAttrs c.AllAttrs attrs)

/-- Modelled from the spec: `ValidateUnknownAttrs(fields, defaults)`.  The unknown attributes are
run through the merge engine; attributes that `fields` does not declare pass through unchanged. -/
def Config.ValidateUnknownAttrs (X : External) (cfg : Config) (keys : List String)
    (fields : List (String × schema.Checker)) (defaults : List (String × Value)) :
    Except String Attrs :=
  let attrs := cfg.UnknownAttrs X
  match schema.fieldMapCoerce fields defaults attrs keys emptyAttrs with
  | .error err => .error err
  | .ok coerced =>
    .ok (fun name =>
      match fields.lookup name, attrs name with
      | none, some value => some value
      | _, _ => coerced name)

/-! ## config.go -/

/-- The schema of the provider specific fields (a Go map, listed here in source order). -/
def configFields : List (String × schema.Checker) :=
  [("skeleton-secret-field", schema.Checker.string),
   ("skeleton-immutable-field", schema.Checker.string),
   ("skeleton-default-field", schema.Checker.string)]

/-- Defaults of the provider specific fields. -/
def configDefaultFields : List (String × Value) :=
  [("skeleton-default-field", Value.str "<specific default value>")]

/-- Names of the secret fields. -/
def configSecretFields : List String := ["skeleton-secret-field"]

/-- Names of the immutable fields. -/
def configImmutableFields : List String := ["skeleton-immutable-field"]

/-- The keys of the `configFields` map. -/
def configFieldNames : List String := configFields.map Prod.fst

/-- One traversal of the `configFields` map by a `range` statement: the keys, each once, in
some order. -/
structure Traversal where
  keys : List String
  perm : keys.Perm configFieldNames

/-- The traversals made by one call of `validateConfig`: the one inside the merge engine and
the one of the empty value loop. -/
structure Ranges where
  coerce : Traversal
  check : Traversal

/-- The validated provider configuration: the generic config and the canonical attributes. -/
structure environConfig where
  Config : Config
  attrs : Attrs

/-- The loop `for field := range configFields` of `validateConfig`: the error of the first
visited field whose canonical value is the empty string. -/
def emptyFieldLoop (newAttrs : Attrs) : List String → Option String
  | [] => none
  | field :: rest =>
    if newAttrs field = some (Value.str "") then
      some (field ++ ": must not be empty")
    else emptyFieldLoop newAttrs rest

/-- The loop `for _, field := range configImmutableFields` of `validateConfig`: the error of
the first immutable field whose old and new canonical values differ. -/
def immutableLoop (oldAttrs newAttrs : Attrs) : List String → Option String
  | [] => none
  | field :: rest =>
    if oldAttrs field ≠ newAttrs field then
      some (field ++ ": cannot change from " ++ fmtV (oldAttrs field) ++ " to "
        ++ fmtV (newAttrs field))
    else immutableLoop oldAttrs newAttrs rest

/-- The function `validateConfig(cfg, old)`. -/
def validateConfig (X : External) (r : Ranges) (cfg : Config) (old : Option environConfig) :
    Except String environConfig :=
  let oldCfg : Option Config := old.map (fun o => o.Config)
  match X.Validate cfg oldCfg with
  | some err => .error err
  | none =>
    match cfg.ValidateUnknownAttrs X r.coerce.keys configFields configDefaultFields with
    | .error err => .error err
    | .ok newAttrs =>
      match emptyFieldLoop newAttrs r.check.keys with
      | some err => .error err
      | none =>
        let changed : Option String := match old with
          | some o => immutableLoop o.attrs newAttrs configImmutableFields
          | none => none
        match changed with
        | some err => .error err
        | none =>
          match cfg.Apply X newAttrs with
          | .error err => .error err
          | .ok newCfg => .ok { Config := newCfg, attrs := newAttrs }

/-! ### prepareConfig and the accessors -/

/-- Modelled from the spec: a generated unique identifier (`utils.UUID`), sixteen raw bytes. -/
structure UUID where
  raw : List Nat
  len : raw.length = 16
  byte : ∀ b, b ∈ raw → b < 256

/-- The method `uuid.Raw()`: the sixteen bytes. -/
def UUID.Raw (u : UUID) : List Nat := u.raw

/-- Modelled from the spec: the source of unique identifiers behind `utils.NewUUID()`.  The
outcome of the call number `n` is `src n`, `none` when the generation fails. -/
abbrev UUIDSource := Nat → Option UUID

/-- Modelled from the spec: `utils.NewUUID()` as explicit state passing: the outcome of the next
call and the number of calls made so far. -/
def utils.NewUUID (src : UUIDSource) (n : Nat) : Option UUID × Nat := (src n, n + 1)

/-- One lowercase hexadecimal digit. -/
def hexDigit (d : Nat) : Char := "0123456789abcdef".toList.getD d '0'

/-- The characters of the Go formatting `%x` of a byte array: two lowercase hexadecimal digits
for each byte, nothing in between. -/
def hexChars : List Nat → List Char
  | [] => []
  | b :: bs => hexDigit (b / 16 % 16) :: hexDigit (b % 16) :: hexChars bs

/-- The text `fmt.Sprintf("%x", bytes)` of a byte array. -/
def fmtX (bytes : List Nat) : String := String.mk (hexChars bytes)

/-- The function `prepareConfig(cfg)`.  The second component of the result is the number of
calls of `utils.NewUUID()` made so far. -/
def prepareConfig (X : External) (src : UUIDSource) (n : Nat) (cfg : Config) :
    Except String Config × Nat :=
  let attrs := cfg.UnknownAttrs X
  match attrs "skeleton-immutable-field" with
  | some _ => (cfg.Apply X attrs, n)
  | none =>
    match utils.NewUUID src n with
    | (none, n') => (.error "cannot generate skeleton-immutable-field", n')
    | (some uuid, n') =>
      (cfg.Apply X (setAttr attrs "skeleton-immutable-field" (.str (fmtX uuid.Raw))), n')

/-- The accessor `secretField()`: the type assertion `.(string)` on the attribute; `none` is
the panic of a failed assertion. -/
def environConfig.secretField (ecfg : environConfig) : Option String :=
  match ecfg.attrs "skeleton-secret-field" with
  | some (.str s) => some s
  | _ => none

/-- The accessor `immutableField()`; `none` is the panic of a failed assertion. -/
def environConfig.immutableField (ecfg : environConfig) : Option String :=
  match ecfg.attrs "skeleton-immutable-field" with
  | some (.str s) => some s
  | _ => none

/-- The accessor `defaultField()`; `none` is the panic of a failed assertion. -/
def environConfig.defaultField (ecfg : environConfig) : Option String :=
  match ecfg.attrs "skeleton-default-field" with
  | some (.str s) => some s
  | _ => none

/-! ## provider.go -/

/-- The method `environProvider.Validate(cfg, old)`.  The three calls of `validateConfig` each
make their own traversals. -/
def environProvider.Validate (X : External) (r1 r2 r3 : Ranges) (cfg : Config)
    (old : Option Config) : Except String Config :=
  match validateConfig X r1 cfg none with
  | .error err => .error ("invalid config: " ++ err)
  | .ok newEcfg =>
    match old with
    | none => .ok newEcfg.Config
    | some old =>
      match validateConfig X r2 old none with
      | .error err => .error ("invalid base config: " ++ err)
      | .ok oldEcfg =>
        match validateConfig X r3 cfg (some oldEcfg) with
        | .error err => .error ("invalid config change: " ++ err)
        | .ok newEcfg => .ok newEcfg.Config

/-- Modelled from the spec: `Name()`, the generic attribute `name` of the config. -/
def Config.Name (c : Config) : String :=
  match c.attrs "name" with
  | some (.str s) => s
  | _ => ""

/-- Modelled from the spec: the runtime environment object (`environ`, declared in
`environ.go`): its name and the validated config it holds, `none` before the first
configuration. -/
structure environ where
  name : String
  ecfg : Option environConfig

/-- Modelled from the spec: the reconfiguration entry point `SetConfig(cfg)` of the runtime
environment object.  The candidate is validated against the config the environment holds;
the error of `validateConfig` is returned unchanged and on success the result is stored. -/
def environ.SetConfig (X : External) (r : Ranges) (env : environ) (cfg : Config) :
    Except String environ :=
  match validateConfig X r cfg env.ecfg with
  | .error err => .error err
  | .ok ecfg => .ok { env with ecfg := some ecfg }

/-- The method `environProvider.Open(cfg)`. -/
def environProvider.Open (X : External) (r : Ranges) (cfg : Config) : Except String environ :=
  let env : environ := { name := cfg.Name, ecfg := none }
  match env.SetConfig X r cfg with
  | .error err => .error err
  | .ok env => .ok env

/-- The method `environProvider.Prepare(ctx, cfg)`; the bootstrap context is not used.  The
second component of the result is the number of calls of `utils.NewUUID()` made so far. -/
def environProvider.Prepare (X : External) (src : UUIDSource) (n : Nat) (r : Ranges)
    (cfg : Config) : Except String environ × Nat :=
  match prepareConfig X src n cfg with
  | (.error err, n') => (.error err, n')
  | (.ok cfg, n') => (environProvider.Open X r cfg, n')

/-- The map `map[string]string` of secret attributes; `none` is an absent key. -/
abbrev SecretMap := String → Option String

/-- The loop `for _, field := range configSecretFields` of `SecretAttrs`. -/
def secretAttrsLoop (attrs : Attrs) : List String → SecretMap → Except String SecretMap
  | [], secretAttrs => .ok secretAttrs
  | field :: rest, secretAttrs =>
    match attrs field with
    | none => secretAttrsLoop attrs rest secretAttrs
    | some (.str stringValue) =>
      secretAttrsLoop attrs rest (fun k => if k = field then some stringValue else secretAttrs k)
    | some value =>
      .error ("secret " ++ field.quote ++ " field must have a string value; got "
        ++ fmtV (some value))

/-- The method `environProvider.SecretAttrs(cfg)`. -/
def environProvider.SecretAttrs (X : External) (r : Ranges) (cfg : Config) :
    Except String SecretMap :=
  match validateConfig X r cfg none with
  | .error err => .error err
  | .ok ecfg => secretAttrsLoop ecfg.attrs configSecretFields (fun _ => none)

/-! ## Concrete inputs (from `config_test.go`) -/

/-- An external subsystem that owns the keys `name` and `type` and accepts everything. -/
def X0 : External :=
  { isGeneric := fun k => k = "name" || k = "type"
    Validate := fun _ _ => none
    rejects := fun _ => none }

/-- The traversal in source order. -/
def t0 : Traversal := ⟨configFieldNames, List.Perm.refl _⟩

/-- Both traversals in source order. -/
def r0 : Ranges := ⟨t0, t0⟩

/-- The map holding the listed entries (the first entry of a key wins). -/
def attrsOf (l : List (String × Value)) : Attrs := fun k => l.lookup k

/-- The helper `newConfig` of the tests: the config with the listed attributes. -/
def newConfig (l : List (String × Value)) : Config := ⟨attrsOf l⟩

/-- The generic attributes of the test configs. -/
def genericAttrs : List (String × Value) :=
  [("name", .str "testenv"), ("type", .str "skeleton")]

/-- The attributes `validAttrs()` of the tests. -/
def validAttrs : List (String × Value) :=
  [("skeleton-secret-field", .str "seekrit"), ("skeleton-immutable-field", .str "static")]
    ++ genericAttrs

/-- Config with the attributes of `validAttrs()`. -/
def validCfg : Config := newConfig validAttrs

/-- Test `cannot change skeleton-immutable-field`: the valid attributes with another value of
the immutable field. -/
def mutantCfg : Config :=
  newConfig ([("skeleton-secret-field", .str "seekrit"),
    ("skeleton-immutable-field", .str "mutant")] ++ genericAttrs)

/-- Test `skeleton-immutable-field cannot be empty`. -/
def emptyImmutableCfg : Config :=
  newConfig ([("skeleton-secret-field", .str "seekrit"),
    ("skeleton-immutable-field", .str "")] ++ genericAttrs)

/-- Test `skeleton-default-field is untouched if present`. -/
def userDefaultCfg : Config :=
  newConfig (("skeleton-default-field", .str "<user value>") :: validAttrs)

/-- A config that omits both declared fields that have no default. -/
def noRequiredCfg : Config := newConfig genericAttrs

/-- A config that omits the secret field and holds a number as immutable field. -/
def numberImmutableCfg : Config :=
  newConfig (("skeleton-immutable-field", .num 12345) :: genericAttrs)

/-- The traversal that visits the immutable field first. -/
def t1 : Traversal :=
  ⟨["skeleton-immutable-field", "skeleton-secret-field", "skeleton-default-field"],
    List.Perm.swap _ _ _⟩

/-- Both traversals with the immutable field first. -/
def r1 : Ranges := ⟨t1, t1⟩

/-- Test `skeleton-secret-field is required`: the valid attributes without the secret field. -/
def noSecretCfg : Config :=
  newConfig (("skeleton-immutable-field", .str "static") :: genericAttrs)

/-- Test `unknown field is not touched`. -/
def unknownFieldCfg : Config :=
  newConfig (("unknown-field", .num 12345) :: validAttrs)

/-- Tests `can change skeleton-secret-field`, `can change skeleton-default-field` and `can
insert unknown field` at once: the valid attributes with another secret, another default and
one more key. -/
def changedCfg : Config :=
  newConfig ([("skeleton-secret-field", .str "okkult"), ("skeleton-default-field", .str "different"),
    ("unknown", .str "ignoti")] ++ validAttrs)

/-- The valid attributes with a number as secret field. -/
def numberSecretCfg : Config :=
  newConfig (("skeleton-secret-field", .num 12345) :: validAttrs)

/-- A config whose secret field and immutable field are both the empty string. -/
def bothEmptyCfg : Config :=
  newConfig ([("skeleton-secret-field", .str ""), ("skeleton-immutable-field", .str "")]
    ++ genericAttrs)

/-- The valid attributes with a boolean as secret field. -/
def boolSecretCfg : Config :=
  newConfig (("skeleton-secret-field", .bool true) :: validAttrs)

/-- A generated identifier, the bytes 0 to 14 and 255. -/
def u0 : UUID := ⟨[0, 1, 2, 3, 4, 5, 6, 7, 8, 9, 10, 11, 12, 13, 14, 255], by decide, by decide⟩

/-- Another generated identifier, which differs from `u0` in the last byte. -/
def u1 : UUID := ⟨[0, 1, 2, 3, 4, 5, 6, 7, 8, 9, 10, 11, 12, 13, 14, 254], by decide, by decide⟩

/-- A source of identifiers whose first call gives `u0` and every later call `u1`. -/
def src0 : UUIDSource := fun n => if n = 0 then some u0 else some u1

/-- The valid attributes without the immutable field, the input `Prepare` is made for. -/
def noImmutableCfg : Config :=
  newConfig (("skeleton-secret-field", .str "seekrit") :: genericAttrs)

/-- A config whose immutable field is the empty string and which omits the secret field. -/
def emptyImmutableNoSecretCfg : Config :=
  newConfig (("skeleton-immutable-field", .str "") :: genericAttrs)

/-- The error text of a failed result, `none` for a success. -/
def errorOf {α : Type} : Except String α → Option String
  | .error e => some e
  | .ok _ => none

/-! ## Closed forms used in the proofs -/

/-- The canonical mapping in closed form: a declared field holds its raw value or its default,
every other key its raw value. -/
def canonicalAttrs (X : External) (cfg : Config) : Attrs :=
  fun name =>
    if name ∈ configFieldNames then
      schema.fieldValue configDefaultFields (cfg.UnknownAttrs X) name
    else cfg.UnknownAttrs X name

/-- The value `validateConfig` returns on success, in closed form. -/
def validResult (X : External) (cfg : Config) : environConfig :=
  { Config := ⟨mergeAttrs cfg.AllAttrs (canonicalAttrs X cfg)⟩, attrs := canonicalAttrs X cfg }

/-- The conditions under which `validateConfig` succeeds. -/
def Accepts (X : External) (cfg : Config) (old : Option environConfig) : Prop :=
  X.Validate cfg (old.map (fun o => o.Config)) = none ∧
  (∀ f, f ∈ configFieldNames → ∃ s, canonicalAttrs X cfg f = some (.str s) ∧ s ≠ "") ∧
  (∀ o, old = some o →
    o.attrs "skeleton-immutable-field" = canonicalAttrs X cfg "skeleton-immutable-field") ∧
  X.rejects (mergeAttrs cfg.AllAttrs (canonicalAttrs X cfg)) = none

/-! ## Lemmas on the merge engine -/

theorem coerce_ok_iff (c : schema.Checker) (v : Option Value) (p : String) (w : Value) :
    c.Coerce v p = .ok w ↔ ∃ s, v = some (.str s) ∧ w = .str s := by
  cases c
  rcases v with _ | (s | n | b) <;> simp [schema.Checker.Coerce, eq_comm]

theorem coerce_error (c : schema.Checker) (v : Option Value) (p e : String)
    (h : c.Coerce v p = .error e) :
    (∀ s, v ≠ some (.str s)) ∧ e = p ++ ": expected string, got " ++ schema.gotDescr v := by
  cases c
  rcases v with _ | (s | n | b) <;> simp_all [schema.Checker.Coerce, eq_comm]

theorem fieldMapCoerce_ok (fields : List (String × schema.Checker))
    (defaults : List (String × Value)) (attrs : Attrs) :
    ∀ (ks : List String) (out out' : Attrs),
      schema.fieldMapCoerce fields defaults attrs ks out = .ok out' →
      (∀ k, k ∈ ks → (fields.lookup k).isSome →
        ∃ s, schema.fieldValue defaults attrs k = some (.str s) ∧ out' k = some (.str s)) ∧
      (∀ k, ¬ (k ∈ ks ∧ (fields.lookup k).isSome) → out' k = out k) := by
  intro ks
  induction ks with
  | nil =>
    intro out out' h
    simp only [schema.fieldMapCoerce, Except.ok.injEq] at h
    subst h
    simp
  | cons k0 ks ih =>
    intro out out' h
    rw [schema.fieldMapCoerce] at h
    cases hl : fields.lookup k0 with
    | none =>
      rw [hl] at h
      obtain ⟨h1, h2⟩ := ih out out' h
      refine ⟨?_, ?_⟩
      · intro k hk hs
        rcases List.mem_cons.1 hk with rfl | hk
        · simp [hl] at hs
        · exact h1 k hk hs
      · intro k hk
        apply h2
        rintro ⟨hk1, hk2⟩
        exact hk ⟨List.mem_cons_of_mem _ hk1, hk2⟩
    | some checker =>
      rw [hl] at h
      cases hc : checker.Coerce (schema.fieldValue defaults attrs k0) k0 with
      | error e => simp [hc] at h
      | ok newv =>
        simp only [hc] at h
        obtain ⟨s0, hs0, rfl⟩ := (coerce_ok_iff _ _ _ _).1 hc
        obtain ⟨h1, h2⟩ := ih _ out' h
        refine ⟨?_, ?_⟩
        · intro k hk hs
          by_cases hmem : k ∈ ks
          · exact h1 k hmem hs
          · rcases List.mem_cons.1 hk with rfl | hk
            · refine ⟨s0, hs0, ?_⟩
              rw [h2 k (fun hh => hmem hh.1)]
              simp [setAttr]
            · exact absurd hk hmem
        · intro k hk
          have hne : k ≠ k0 := by
            rintro rfl
            exact hk ⟨List.mem_cons_self _ _, by simp [hl]⟩
          rw [h2 k (fun hh => hk ⟨List.mem_cons_of_mem _ hh.1, hh.2⟩)]
          simp [setAttr, hne]

theorem fieldMapCoerce_error (fields : List (String × schema.Checker))
    (defaults : List (String × Value)) (attrs : Attrs) :
    ∀ (ks : List String) (out : Attrs) (e : String),
      schema.fieldMapCoerce fields defaults attrs ks out = .error e →
      ∃ k, k ∈ ks ∧ (fields.lookup k).isSome ∧
        (∀ s, schema.fieldValue defaults attrs k ≠ some (.str s)) ∧
        e = k ++ ": expected string, got " ++
          schema.gotDescr (schema.fieldValue defaults attrs k) := by
  intro ks
  induction ks with
  | nil =>
    intro out e h
    simp [schema.fieldMapCoerce] at h
  | cons k0 ks ih =>
    intro out e h
    rw [schema.fieldMapCoerce] at h
    cases hl : fields.lookup k0 with
    | none =>
      rw [hl] at h
      obtain ⟨k, hk, hrest⟩ := ih out e h
      exact ⟨k, List.mem_cons_of_mem _ hk, hrest⟩
    | some checker =>
      rw [hl] at h
      cases hc : checker.Coerce (schema.fieldValue defaults attrs k0) k0 with
      | error e0 =>
        simp only [hc, Except.error.injEq] at h
        subst h
        obtain ⟨hv, he⟩ := coerce_error _ _ _ _ hc
        exact ⟨k0, List.mem_cons_self _ _, by simp [hl], hv, he⟩
      | ok newv =>
        simp only [hc] at h
        obtain ⟨k, hk, hrest⟩ := ih _ e h
        exact ⟨k, List.mem_cons_of_mem _ hk, hrest⟩

theorem fieldMapCoerce_succeeds (fields : List (String × schema.Checker))
    (defaults : List (String × Value)) (attrs : Attrs) (ks : List String) (out : Attrs)
    (h : ∀ k, k ∈ ks → (fields.lookup k).isSome →
      ∃ s, schema.fieldValue defaults attrs k = some (.str s)) :
    ∃ out', schema.fieldMapCoerce fields defaults attrs ks out = .ok out' := by
  cases hr : schema.fieldMapCoerce fields defaults attrs ks out with
  | ok out' => exact ⟨out', rfl⟩
  | error e =>
    obtain ⟨k, hk, hs, hv, _⟩ := fieldMapCoerce_error fields defaults attrs ks out e hr
    obtain ⟨s, hs'⟩ := h k hk hs
    exact absurd hs' (hv s)

/-! ## Lemmas on the provider schema -/

theorem mem_configFieldNames (k : String) :
    k ∈ configFieldNames ↔
      k = "skeleton-secret-field" ∨ k = "skeleton-immutable-field" ∨
        k = "skeleton-default-field" := by
  simp [configFieldNames, configFields]

theorem lookup_configFields_isSome (k : String) :
    (configFields.lookup k).isSome ↔ k ∈ configFieldNames := by
  rw [mem_configFieldNames]
  by_cases h1 : k = "skeleton-secret-field"
  · subst h1; simp [configFields, List.lookup]
  by_cases h2 : k = "skeleton-immutable-field"
  · subst h2; simp [configFields, List.lookup]
  by_cases h3 : k = "skeleton-default-field"
  · subst h3; simp [configFields, List.lookup]
  have e1 : (k == "skeleton-secret-field") = false := by simpa using h1
  have e2 : (k == "skeleton-immutable-field") = false := by simpa using h2
  have e3 : (k == "skeleton-default-field") = false := by simpa using h3
  simp [configFields, List.lookup, h1, h2, h3, e1, e2, e3]

theorem lookup_configFields_eq_none (k : String) :
    configFields.lookup k = none ↔ k ∉ configFieldNames := by
  rw [← lookup_configFields_isSome]
  cases configFields.lookup k <;> simp

theorem Traversal.mem_keys (t : Traversal) (k : String) : k ∈ t.keys ↔ k ∈ configFieldNames :=
  t.perm.mem_iff

/-- Success of the merge engine on the provider schema: the result is the canonical mapping in
closed form and every declared field resolves to a string. -/
theorem validateUnknownAttrs_ok (X : External) (cfg : Config) (t : Traversal) (a : Attrs)
    (h : cfg.ValidateUnknownAttrs X t.keys configFields configDefaultFields = .ok a) :
    a = canonicalAttrs X cfg ∧
      ∀ f, f ∈ configFieldNames → ∃ s, canonicalAttrs X cfg f = some (.str s) := by
  unfold Config.ValidateUnknownAttrs at h
  cases hc : schema.fieldMapCoerce configFields configDefaultFields (cfg.UnknownAttrs X)
      t.keys emptyAttrs with
  | error e => simp [hc] at h
  | ok coerced =>
    simp only [hc, Except.ok.injEq] at h
    obtain ⟨h1, h2⟩ := fieldMapCoerce_ok _ _ _ _ _ _ hc
    have hdecl : ∀ f, f ∈ configFieldNames →
        ∃ s, canonicalAttrs X cfg f = some (.str s) ∧ coerced f = some (.str s) := by
      intro f hf
      obtain ⟨s, hs, hs'⟩ := h1 f ((t.mem_keys f).2 hf) ((lookup_configFields_isSome f).2 hf)
      exact ⟨s, by simp [canonicalAttrs, hf, hs], hs'⟩
    refine ⟨?_, fun f hf => ?_⟩
    · subst h
      funext name
      by_cases hn : name ∈ configFieldNames
      · obtain ⟨s, hs, hs'⟩ := hdecl name hn
        have hl : configFields.lookup name ≠ none := by
          rw [Ne, lookup_configFields_eq_none]; exact not_not.2 hn
        cases hlk : configFields.lookup name with
        | none => exact absurd hlk hl
        | some c => simp [hs, hs']
      · have hl : configFields.lookup name = none := (lookup_configFields_eq_none name).2 hn
        have hco : coerced name = none := by
          rw [h2 name (fun hh => hn ((t.mem_keys name).1 hh.1))]; rfl
        simp only [hl, canonicalAttrs, hn, if_false]
        cases hu : cfg.UnknownAttrs X name with
        | none => simp [hco]
        | some v => simp
    · obtain ⟨s, hs, _⟩ := hdecl f hf
      exact ⟨s, hs⟩

/-- The merge engine succeeds as soon as every declared field resolves to a string. -/
theorem validateUnknownAttrs_succeeds (X : External) (cfg : Config) (t : Traversal)
    (h : ∀ f, f ∈ configFieldNames → ∃ s, canonicalAttrs X cfg f = some (.str s)) :
    cfg.ValidateUnknownAttrs X t.keys configFields configDefaultFields
      = .ok (canonicalAttrs X cfg) := by
  have hex : ∃ out', schema.fieldMapCoerce configFields configDefaultFields (cfg.UnknownAttrs X)
      t.keys emptyAttrs = .ok out' := by
    apply fieldMapCoerce_succeeds
    intro k hk _
    have hf := (t.mem_keys k).1 hk
    obtain ⟨s, hs⟩ := h k hf
    exact ⟨s, by simpa [canonicalAttrs, hf] using hs⟩
  obtain ⟨out', hout⟩ := hex
  have hva : ∃ a, cfg.ValidateUnknownAttrs X t.keys configFields configDefaultFields = .ok a := by
    unfold Config.ValidateUnknownAttrs
    simp only [hout]
    exact ⟨_, rfl⟩
  obtain ⟨a, ha⟩ := hva
  rw [ha, (validateUnknownAttrs_ok X cfg t a ha).1]

/-- Failure of the merge engine on the provider schema: the error is the schema error of a
declared field that does not resolve to a string. -/
theorem validateUnknownAttrs_error (X : External) (cfg : Config) (t : Traversal) (e : String)
    (h : cfg.ValidateUnknownAttrs X t.keys configFields configDefaultFields = .error e) :
    ∃ f, f ∈ configFieldNames ∧ (∀ s, canonicalAttrs X cfg f ≠ some (.str s)) ∧
      e = f ++ ": expected string, got " ++ schema.gotDescr (canonicalAttrs X cfg f) := by
  unfold Config.ValidateUnknownAttrs at h
  cases hc : schema.fieldMapCoerce configFields configDefaultFields (cfg.UnknownAttrs X)
      t.keys emptyAttrs with
  | ok coerced => simp [hc] at h
  | error e0 =>
    simp only [hc, Except.error.injEq] at h
    subst h
    obtain ⟨k, hk, _, hv, he⟩ := fieldMapCoerce_error _ _ _ _ _ _ hc
    have hf := (t.mem_keys k).1 hk
    refine ⟨k, hf, ?_, ?_⟩
    · simpa [canonicalAttrs, hf] using hv
    · simpa [canonicalAttrs, hf] using he

/-! ## Lemmas on the loops of validateConfig -/

theorem emptyFieldLoop_eq_none (a : Attrs) (ks : List String) :
    emptyFieldLoop a ks = none ↔ ∀ k, k ∈ ks → a k ≠ some (.str "") := by
  induction ks with
  | nil => simp [emptyFieldLoop]
  | cons k ks ih =>
    by_cases hk : a k = some (.str "")
    · simp [emptyFieldLoop, hk]
    · simp [emptyFieldLoop, hk, ih]

theorem emptyFieldLoop_eq_some (a : Attrs) (ks : List String) (e : String)
    (h : emptyFieldLoop a ks = some e) :
    ∃ k, k ∈ ks ∧ a k = some (.str "") ∧ e = k ++ ": must not be empty" := by
  induction ks with
  | nil => simp [emptyFieldLoop] at h
  | cons k ks ih =>
    by_cases hk : a k = some (.str "")
    · simp only [emptyFieldLoop, hk, if_true, Option.some.injEq] at h
      exact ⟨k, List.mem_cons_self _ _, hk, h.symm⟩
    · simp only [emptyFieldLoop, hk, if_false] at h
      obtain ⟨k', hk', hrest⟩ := ih h
      exact ⟨k', List.mem_cons_of_mem _ hk', hrest⟩

theorem immutableLoop_configImmutableFields (o a : Attrs) :
    immutableLoop o a configImmutableFields =
      if o "skeleton-immutable-field" = a "skeleton-immutable-field" then none
      else some ("skeleton-immutable-field" ++ ": cannot change from "
        ++ fmtV (o "skeleton-immutable-field") ++ " to " ++ fmtV (a "skeleton-immutable-field")) := by
  by_cases h : o "skeleton-immutable-field" = a "skeleton-immutable-field" <;>
    simp [immutableLoop, configImmutableFields, h]

/-! ## Characterisation of validateConfig -/

theorem validateConfig_ok (X : External) (r : Ranges) (cfg : Config)
    (old : Option environConfig) (res : environConfig)
    (h : validateConfig X r cfg old = .ok res) :
    Accepts X cfg old ∧ res = validResult X cfg := by
  unfold validateConfig at h
  cases hV : X.Validate cfg (old.map (fun o => o.Config)) with
  | some e => simp [hV] at h
  | none =>
    simp only [hV] at h
    cases hS : cfg.ValidateUnknownAttrs X r.coerce.keys configFields configDefaultFields with
    | error e => simp [hS] at h
    | ok a =>
      simp only [hS] at h
      obtain ⟨rfl, hstr⟩ := validateUnknownAttrs_ok X cfg r.coerce a hS
      cases hE : emptyFieldLoop (canonicalAttrs X cfg) r.check.keys with
      | some e => simp [hE] at h
      | none =>
        simp only [hE] at h
        have hne := (emptyFieldLoop_eq_none _ _).1 hE
        have hfields : ∀ f, f ∈ configFieldNames →
            ∃ s, canonicalAttrs X cfg f = some (.str s) ∧ s ≠ "" := by
          intro f hf
          obtain ⟨s, hs⟩ := hstr f hf
          refine ⟨s, hs, ?_⟩
          rintro rfl
          exact hne f ((r.check.mem_keys f).2 hf) hs
        cases hA : X.rejects (mergeAttrs cfg.AllAttrs (canonicalAttrs X cfg)) with
        | some e =>
          cases old with
          | none => simp [Config.Apply, config.New, hA] at h
          | some o =>
            simp only [immutableLoop_configImmutableFields] at h
            split at h <;> simp_all [Config.Apply, config.New]
        | none =>
          cases old with
          | none =>
            simp only [Config.Apply, config.New, hA, Except.ok.injEq] at h
            exact ⟨⟨hV, hfields, by simp, hA⟩, h.symm⟩
          | some o =>
            simp only [immutableLoop_configImmutableFields] at h
            by_cases himm : o.attrs "skeleton-immutable-field"
                = canonicalAttrs X cfg "skeleton-immutable-field"
            · simp only [himm, if_true, Config.Apply, config.New, hA, Except.ok.injEq] at h
              refine ⟨⟨hV, hfields, ?_, hA⟩, h.symm⟩
              intro o' ho'
              cases ho'
              exact himm
            · simp [himm] at h

theorem validateConfig_succeeds (X : External) (r : Ranges) (cfg : Config)
    (old : Option environConfig) (h : Accepts X cfg old) :
    validateConfig X r cfg old = .ok (validResult X cfg) := by
  obtain ⟨hV, hfields, himm, hA⟩ := h
  have hS := validateUnknownAttrs_succeeds X cfg r.coerce
    (fun f hf => (hfields f hf).imp fun s hs => hs.1)
  have hE : emptyFieldLoop (canonicalAttrs X cfg) r.check.keys = none := by
    rw [emptyFieldLoop_eq_none]
    intro k hk hempty
    obtain ⟨s, hs, hne⟩ := hfields k ((r.check.mem_keys k).1 hk)
    rw [hs] at hempty
    simp only [Option.some.injEq, Value.str.injEq] at hempty
    exact hne hempty
  unfold validateConfig
  simp only [hV, hS, hE]
  cases old with
  | none => simp [Config.Apply, config.New, hA, validResult]
  | some o =>
    simp [immutableLoop_configImmutableFields, himm o rfl, Config.Apply, config.New, hA,
      validResult]

theorem validateConfig_ok_iff (X : External) (r : Ranges) (cfg : Config)
    (old : Option environConfig) (res : environConfig) :
    validateConfig X r cfg old = .ok res ↔ Accepts X cfg old ∧ res = validResult X cfg := by
  constructor
  · exact validateConfig_ok X r cfg old res
  · rintro ⟨h, rfl⟩
    exact validateConfig_succeeds X r cfg old h

theorem errorOf_eq_some {α : Type} (x : Except String α) (e : String)
    (h : errorOf x = some e) : x = .error e := by
  cases x with
  | error e0 => simpa [errorOf] using h
  | ok a => simp [errorOf] at h

theorem mergeAttrs_of_some (base over : Attrs) (k : String) (v : Value) (h : over k = some v) :
    mergeAttrs base over k = some v := by
  simp [mergeAttrs, h]

/-- With the accepting external subsystem `X0` a config is accepted as soon as its three
declared fields resolve to non-empty strings and the immutable field agrees with the baseline. -/
theorem accepts_X0 (cfg : Config) (old : Option environConfig) (s i d : String)
    (hs : canonicalAttrs X0 cfg "skeleton-secret-field" = some (.str s)) (hs' : s ≠ "")
    (hi : canonicalAttrs X0 cfg "skeleton-immutable-field" = some (.str i)) (hi' : i ≠ "")
    (hd : canonicalAttrs X0 cfg "skeleton-default-field" = some (.str d)) (hd' : d ≠ "")
    (ho : ∀ o, old = some o → o.attrs "skeleton-immutable-field" = some (.str i)) :
    Accepts X0 cfg old := by
  refine ⟨rfl, ?_, ?_, rfl⟩
  · intro f hf
    rw [mem_configFieldNames] at hf
    rcases hf with rfl | rfl | rfl
    · exact ⟨s, hs, hs'⟩
    · exact ⟨i, hi, hi'⟩
    · exact ⟨d, hd, hd'⟩
  · intro o h
    rw [hi]
    exact ho o h

theorem validateConfig_validCfg (r : Ranges) :
    validateConfig X0 r validCfg none = .ok (validResult X0 validCfg) :=
  validateConfig_succeeds X0 r validCfg none
    (accepts_X0 validCfg none "seekrit" "static" "<specific default value>"
      (by decide) (by decide) (by decide) (by decide) (by decide) (by decide) (by simp))

theorem apply_ok_iff (X : External) (cfg : Config) (a : Attrs) :
    (∃ c, cfg.Apply X a = .ok c) ↔ X.rejects (mergeAttrs cfg.AllAttrs a) = none := by
  unfold Config.Apply config.New
  cases X.rejects (mergeAttrs cfg.AllAttrs a) <;> simp

theorem canonicalAttrs_of_some (X : External) (cfg : Config) (k : String) (v : Value)
    (h : cfg.UnknownAttrs X k = some v) : canonicalAttrs X cfg k = some v := by
  unfold canonicalAttrs schema.fieldValue
  split <;> simp [h]

theorem canonicalAttrs_required_of_none (X : External) (cfg : Config) (f : String)
    (hf : f = "skeleton-secret-field" ∨ f = "skeleton-immutable-field")
    (h : cfg.UnknownAttrs X f = none) : canonicalAttrs X cfg f = none := by
  rcases hf with rfl | rfl <;>
    simp [canonicalAttrs, schema.fieldValue, h, mem_configFieldNames, configDefaultFields,
      List.lookup]

theorem canonicalAttrs_default_of_none (X : External) (cfg : Config)
    (h : cfg.UnknownAttrs X "skeleton-default-field" = none) :
    canonicalAttrs X cfg "skeleton-default-field" = some (.str "<specific default value>") := by
  simp [canonicalAttrs, schema.fieldValue, h, mem_configFieldNames, configDefaultFields,
    List.lookup]

theorem canonicalAttrs_declared (X : External) (cfg : Config) (f : String)
    (hf : f ∈ configFieldNames) :
    canonicalAttrs X cfg f = schema.fieldValue configDefaultFields (cfg.UnknownAttrs X) f := by
  simp [canonicalAttrs, hf]

theorem mergeAttrs_mergeAttrs (base over : Attrs) :
    mergeAttrs (mergeAttrs base over) over = mergeAttrs base over := by
  funext k
  unfold mergeAttrs
  cases over k <;> rfl

/-- The canonical mapping of a validated config is the canonical mapping it was built from. -/
theorem canonicalAttrs_validResult (X : External) (c : Config)
    (h : ∀ f, f ∈ configFieldNames → ∃ s, canonicalAttrs X c f = some (.str s)) :
    canonicalAttrs X (validResult X c).Config = canonicalAttrs X c := by
  funext k
  by_cases hk : k ∈ configFieldNames
  · obtain ⟨s, hs⟩ := h k hk
    have hm : mergeAttrs c.AllAttrs (canonicalAttrs X c) k = some (.str s) :=
      mergeAttrs_of_some _ _ _ _ hs
    rw [canonicalAttrs_declared X _ k hk]
    by_cases hg : X.isGeneric k = true
    · rw [canonicalAttrs_declared X c k hk]
      simp [schema.fieldValue, Config.UnknownAttrs, hg]
    · simp only [schema.fieldValue, Config.UnknownAttrs, hg, validResult]
      simp only [Bool.false_eq_true, if_false, hm, hs]
  · by_cases hg : X.isGeneric k = true
    · simp [canonicalAttrs, hk, Config.UnknownAttrs, hg]
    · simp only [canonicalAttrs, hk, if_false, Config.UnknownAttrs, hg, validResult,
        Bool.false_eq_true, mergeAttrs, Config.AllAttrs]
      cases c.attrs k <;> rfl

/-- The value `environProvider.Validate` returns on success is the config of the candidate
validated on its own. -/
theorem Validate_ok (X : External) (r1 r2 r3 : Ranges) (cfg : Config) (old : Option Config)
    (res : Config) (h : environProvider.Validate X r1 r2 r3 cfg old = .ok res) :
    res = (validResult X cfg).Config := by
  unfold environProvider.Validate at h
  cases h1 : validateConfig X r1 cfg none with
  | error e => simp [h1] at h
  | ok newEcfg =>
    simp only [h1] at h
    cases old with
    | none =>
      simp only [Except.ok.injEq] at h
      rw [← h, (validateConfig_ok X r1 cfg none newEcfg h1).2]
    | some o =>
      simp only at h
      cases h2 : validateConfig X r2 o none with
      | error e => simp [h2] at h
      | ok oldEcfg =>
        simp only [h2] at h
        cases h3 : validateConfig X r3 cfg (some oldEcfg) with
        | error e => simp [h3] at h
        | ok newEcfg2 =>
          simp only [h3, Except.ok.injEq] at h
          rw [← h, (validateConfig_ok X r3 cfg _ newEcfg2 h3).2]

theorem validResult_undeclared (X : External) (cfg : Config) (k : String)
    (hk : k ∉ configFieldNames) :
    (validResult X cfg).Config.AllAttrs k = cfg.AllAttrs k ∧
      (validResult X cfg).attrs k = cfg.UnknownAttrs X k := by
  refine ⟨?_, by simp [validResult, canonicalAttrs, hk]⟩
  simp only [validResult, Config.AllAttrs, mergeAttrs, canonicalAttrs, hk, if_false,
    Config.UnknownAttrs]
  by_cases hg : X.isGeneric k = true
  · simp [hg]
  · simp only [hg, Bool.false_eq_true, if_false]
    cases cfg.attrs k <;> rfl

/-! ## Claims -/

/-- Claim C1: whenever `validateConfig` succeeds, with or without a baseline, every field
declared in `configFields` is present in the returned canonical attributes, and its value is a
string that is not the empty string. -/
theorem validateConfig_declared_fields_nonempty (X : External) (r : Ranges) (cfg : Config)
    (old : Option environConfig) (res : environConfig)
    (h : validateConfig X r cfg old = .ok res) :
    ∀ f, f ∈ configFieldNames → ∃ s, res.attrs f = some (.str s) ∧ s ≠ "" := by
  obtain ⟨hacc, rfl⟩ := validateConfig_ok X r cfg old res h
  exact hacc.2.1

/-- Witness of claim C1 on the valid test config: the three declared fields of the result are
non-empty strings, the default field being the literal default. -/
theorem validateConfig_declared_fields_nonempty_witness :
    validateConfig X0 r0 validCfg none = .ok (validResult X0 validCfg) ∧
      (validResult X0 validCfg).attrs "skeleton-default-field"
        = some (.str "<specific default value>") ∧
      ∀ f, f ∈ configFieldNames →
        ∃ s, (validResult X0 validCfg).attrs f = some (.str s) ∧ s ≠ "" :=
  ⟨validateConfig_validCfg r0, by decide,
    validateConfig_declared_fields_nonempty X0 r0 validCfg none _ (validateConfig_validCfg r0)⟩

/-- Claim C2: when `environProvider.Validate(cfg, old)` succeeds with a non-nil baseline `old`,
the baseline validates on its own and every immutable field of the returned config holds the
canonical value that the field has in the validated baseline. -/
theorem Validate_keeps_immutable_fields (X : External) (r1 r2 r3 : Ranges) (cfg old : Config)
    (res : Config) (h : environProvider.Validate X r1 r2 r3 cfg (some old) = .ok res) :
    ∃ oldEcfg, validateConfig X r2 old none = .ok oldEcfg ∧
      ∀ f, f ∈ configImmutableFields → res.AllAttrs f = oldEcfg.attrs f := by
  unfold environProvider.Validate at h
  cases h1 : validateConfig X r1 cfg none with
  | error e => simp [h1] at h
  | ok newEcfg =>
    simp only [h1] at h
    cases h2 : validateConfig X r2 old none with
    | error e => simp [h2] at h
    | ok oldEcfg =>
      simp only [h2] at h
      cases h3 : validateConfig X r3 cfg (some oldEcfg) with
      | error e => simp [h3] at h
      | ok newEcfg2 =>
        simp only [h3, Except.ok.injEq] at h
        subst h
        obtain ⟨hacc, rfl⟩ := validateConfig_ok X r3 cfg (some oldEcfg) newEcfg2 h3
        refine ⟨oldEcfg, rfl, ?_⟩
        intro f hf
        simp only [configImmutableFields, List.mem_singleton] at hf
        subst hf
        obtain ⟨s, hs, _⟩ := hacc.2.1 "skeleton-immutable-field" (by decide)
        rw [hacc.2.2.1 oldEcfg rfl, hs]
        exact mergeAttrs_of_some _ _ _ _ hs

/-- Witness of claim C2: the valid test config validated against itself keeps the immutable
field `static`. -/
theorem Validate_keeps_immutable_fields_witness :
    environProvider.Validate X0 r0 r0 r0 validCfg (some validCfg)
        = .ok (validResult X0 validCfg).Config ∧
      ∃ oldEcfg, validateConfig X0 r0 validCfg none = .ok oldEcfg ∧
        ∀ f, f ∈ configImmutableFields →
          (validResult X0 validCfg).Config.AllAttrs f = oldEcfg.attrs f :=
  have h3 : validateConfig X0 r0 validCfg (some (validResult X0 validCfg))
      = .ok (validResult X0 validCfg) :=
    validateConfig_succeeds X0 r0 validCfg _
      (accepts_X0 validCfg _ "seekrit" "static" "<specific default value>"
        (by decide) (by decide) (by decide) (by decide) (by decide) (by decide)
        (by intro o ho; cases ho; decide))
  have h : environProvider.Validate X0 r0 r0 r0 validCfg (some validCfg)
      = .ok (validResult X0 validCfg).Config := by
    simp [environProvider.Validate, validateConfig_validCfg, h3]
  ⟨h, Validate_keeps_immutable_fields X0 r0 r0 r0 validCfg validCfg _ h⟩

/-- Claim C3, counterexample: the baseline is the validated test config (immutable field
`static`), the candidate has the empty string as immutable field and is valid for the schema.
The canonical values of the immutable field differ, and `validateConfig` fails with the
empty field error, not with the immutable field error. -/
theorem immutable_change_reported_as_empty_field :
    validateConfig X0 r0 validCfg none = .ok (validResult X0 validCfg) ∧
      (validResult X0 validCfg).attrs "skeleton-immutable-field" = some (.str "static") ∧
      (emptyImmutableCfg.ValidateUnknownAttrs X0 t0.keys configFields configDefaultFields).toOption.map
        (fun a => a "skeleton-immutable-field") = some (some (.str "")) ∧
      validateConfig X0 r0 emptyImmutableCfg (some (validResult X0 validCfg))
        = .error "skeleton-immutable-field: must not be empty" ∧
      validateConfig X0 r0 emptyImmutableCfg (some (validResult X0 validCfg))
        ≠ .error "skeleton-immutable-field: cannot change from static to " := by
  have h : validateConfig X0 r0 emptyImmutableCfg (some (validResult X0 validCfg))
      = .error "skeleton-immutable-field: must not be empty" :=
    errorOf_eq_some _ _ (by decide)
  refine ⟨validateConfig_validCfg r0, by decide, by decide, h, ?_⟩
  rw [h]
  intro hc
  exact absurd (Except.error.inj hc) (by decide)

/-- Claim C3, amended: let the candidate pass the generic validation against the baseline and
the schema validation, with canonical mapping `newAttrs` in which no declared field is the
empty string.  Then for every immutable field whose canonical value in the baseline differs
from the one in `newAttrs`, `validateConfig` fails with
`<field>: cannot change from <old> to <new>`, whatever else differs between the two. -/
theorem validateConfig_immutable_field_changed (X : External) (r : Ranges) (t : Traversal)
    (cfg : Config) (old : environConfig) (newAttrs : Attrs)
    (hV : X.Validate cfg (some old.Config) = none)
    (hS : cfg.ValidateUnknownAttrs X t.keys configFields configDefaultFields = .ok newAttrs)
    (hE : ∀ f, f ∈ configFieldNames → newAttrs f ≠ some (.str "")) :
    ∀ f, f ∈ configImmutableFields → old.attrs f ≠ newAttrs f →
      validateConfig X r cfg (some old)
        = .error (f ++ ": cannot change from " ++ fmtV (old.attrs f) ++ " to "
            ++ fmtV (newAttrs f)) := by
  intro f hf hne
  simp only [configImmutableFields, List.mem_singleton] at hf
  subst hf
  obtain ⟨rfl, hstr⟩ := validateUnknownAttrs_ok X cfg t newAttrs hS
  have hS' := validateUnknownAttrs_succeeds X cfg r.coerce hstr
  have hE' : emptyFieldLoop (canonicalAttrs X cfg) r.check.keys = none := by
    rw [emptyFieldLoop_eq_none]
    intro k hk
    exact hE k ((r.check.mem_keys k).1 hk)
  unfold validateConfig
  simp only [Option.map_some', hV, hS', hE', immutableLoop_configImmutableFields, if_neg hne]

/-- Witness of the amended claim C3, test `cannot change skeleton-immutable-field`: the valid
config as baseline and `mutant` as immutable field of the candidate. -/
theorem validateConfig_immutable_field_changed_witness :
    validateConfig X0 r0 mutantCfg (some (validResult X0 validCfg))
      = .error "skeleton-immutable-field: cannot change from static to mutant" :=
  validateConfig_immutable_field_changed X0 r0 t0 mutantCfg (validResult X0 validCfg)
    (canonicalAttrs X0 mutantCfg) rfl
    (validateUnknownAttrs_succeeds X0 mutantCfg t0 (by
      intro f hf
      rw [mem_configFieldNames] at hf
      rcases hf with rfl | rfl | rfl
      · exact ⟨"seekrit", by decide⟩
      · exact ⟨"mutant", by decide⟩
      · exact ⟨"<specific default value>", by decide⟩))
    (by
      intro f hf
      rw [mem_configFieldNames] at hf
      rcases hf with rfl | rfl | rfl <;> decide)
    "skeleton-immutable-field" (by decide) (by decide)

/-- Claim C4: `environProvider.Validate(cfg, old)` classifies its failure by phase.  If `cfg`
fails on its own the result is the error `invalid config: <err>`, whatever `old` is; otherwise,
if `old` is supplied and fails on its own, `invalid base config: <err>`; otherwise, if `cfg`
fails against the validated `old`, `invalid config change: <err>`; otherwise the validated
config is returned.  In each case `<err>` is the error of that `validateConfig` call, and a
failure carries no config. -/
theorem Validate_classifies_failure (X : External) (r1 r2 r3 : Ranges) (cfg : Config)
    (old : Option Config) :
    (∀ e, validateConfig X r1 cfg none = .error e →
      environProvider.Validate X r1 r2 r3 cfg old = .error ("invalid config: " ++ e)) ∧
    (∀ c o e, validateConfig X r1 cfg none = .ok c → old = some o →
      validateConfig X r2 o none = .error e →
      environProvider.Validate X r1 r2 r3 cfg old = .error ("invalid base config: " ++ e)) ∧
    (∀ c o oe e, validateConfig X r1 cfg none = .ok c → old = some o →
      validateConfig X r2 o none = .ok oe → validateConfig X r3 cfg (some oe) = .error e →
      environProvider.Validate X r1 r2 r3 cfg old = .error ("invalid config change: " ++ e)) ∧
    (∀ c, validateConfig X r1 cfg none = .ok c → old = none →
      environProvider.Validate X r1 r2 r3 cfg old = .ok c.Config) ∧
    (∀ c o oe c2, validateConfig X r1 cfg none = .ok c → old = some o →
      validateConfig X r2 o none = .ok oe → validateConfig X r3 cfg (some oe) = .ok c2 →
      environProvider.Validate X r1 r2 r3 cfg old = .ok c2.Config) := by
  refine ⟨?_, ?_, ?_, ?_, ?_⟩
  · intro e h1
    simp [environProvider.Validate, h1]
  · intro c o e h1 ho h2
    subst ho
    simp [environProvider.Validate, h1, h2]
  · intro c o oe e h1 ho h2 h3
    subst ho
    simp [environProvider.Validate, h1, h2, h3]
  · intro c h1 ho
    subst ho
    simp [environProvider.Validate, h1]
  · intro c o oe c2 h1 ho h2 h3
    subst ho
    simp [environProvider.Validate, h1, h2, h3]

/-- Witness of claim C4, test `cannot change skeleton-immutable-field` of `TestValidateChange`:
the third phase fails and its error is reported as an invalid config change. -/
theorem Validate_classifies_failure_witness :
    environProvider.Validate X0 r0 r0 r0 mutantCfg (some validCfg)
      = .error ("invalid config change: "
          ++ "skeleton-immutable-field: cannot change from static to mutant") :=
  (Validate_classifies_failure X0 r0 r0 r0 mutantCfg (some validCfg)).2.2.1
    (validResult X0 mutantCfg) validCfg (validResult X0 validCfg) _
    (validateConfig_succeeds X0 r0 mutantCfg none
      (accepts_X0 mutantCfg none "seekrit" "mutant" "<specific default value>"
        (by decide) (by decide) (by decide) (by decide) (by decide) (by decide) (by simp)))
    rfl (validateConfig_validCfg r0)
    (errorOf_eq_some _ _ (by decide))

/-- Claim C5: let the candidate pass the generic validation and the schema validation, with
canonical mapping `newAttrs`, and let some declared field be the empty string in `newAttrs`.
Then `validateConfig` fails (no config is returned) with `<field>: must not be empty`, where
`<field>` is a declared field whose canonical value is the empty string; when exactly one
declared field is empty, the secret, the immutable or the default one, it is the field named. -/
theorem validateConfig_empty_field (X : External) (r : Ranges) (t : Traversal) (cfg : Config)
    (old : Option environConfig) (newAttrs : Attrs)
    (hV : X.Validate cfg (old.map (fun o => o.Config)) = none)
    (hS : cfg.ValidateUnknownAttrs X t.keys configFields configDefaultFields = .ok newAttrs)
    (hE : ∃ f, f ∈ configFieldNames ∧ newAttrs f = some (.str "")) :
    (∃ f, f ∈ configFieldNames ∧ newAttrs f = some (.str "") ∧
      validateConfig X r cfg old = .error (f ++ ": must not be empty")) ∧
    (∀ f, f ∈ configFieldNames → newAttrs f = some (.str "") →
      (∀ g, g ∈ configFieldNames → g ≠ f → newAttrs g ≠ some (.str "")) →
      validateConfig X r cfg old = .error (f ++ ": must not be empty")) := by
  obtain ⟨rfl, hstr⟩ := validateUnknownAttrs_ok X cfg t newAttrs hS
  have hS' := validateUnknownAttrs_succeeds X cfg r.coerce hstr
  have hex : ∃ f, f ∈ configFieldNames ∧ canonicalAttrs X cfg f = some (.str "") ∧
      validateConfig X r cfg old = .error (f ++ ": must not be empty") := by
    cases hl : emptyFieldLoop (canonicalAttrs X cfg) r.check.keys with
    | none =>
      obtain ⟨f, hf, hf'⟩ := hE
      exact absurd hf' ((emptyFieldLoop_eq_none _ _).1 hl f ((r.check.mem_keys f).2 hf))
    | some e =>
      obtain ⟨k, hk, hk', rfl⟩ := emptyFieldLoop_eq_some _ _ _ hl
      refine ⟨k, (r.check.mem_keys k).1 hk, hk', ?_⟩
      unfold validateConfig
      simp only [hV, hS', hl]
  refine ⟨hex, ?_⟩
  intro f _ _ honly
  obtain ⟨g, hg, hg', hres⟩ := hex
  by_cases hgf : g = f
  · rw [← hgf]; exact hres
  · exact absurd hg' (honly g hg hgf)

/-- Witness of claim C5, test `skeleton-immutable-field cannot be empty`. -/
theorem validateConfig_empty_field_witness :
    validateConfig X0 r0 emptyImmutableCfg none
      = .error ("skeleton-immutable-field" ++ ": must not be empty") :=
  (validateConfig_empty_field X0 r0 t0 emptyImmutableCfg none
    (canonicalAttrs X0 emptyImmutableCfg) rfl
    (validateUnknownAttrs_succeeds X0 emptyImmutableCfg t0 (by
      intro f hf
      rw [mem_configFieldNames] at hf
      rcases hf with rfl | rfl | rfl
      · exact ⟨"seekrit", by decide⟩
      · exact ⟨"", by decide⟩
      · exact ⟨"<specific default value>", by decide⟩))
    ⟨"skeleton-immutable-field", by decide, by decide⟩).2
    "skeleton-immutable-field" (by decide) (by decide) (by
      intro g hg hne
      rw [mem_configFieldNames] at hg
      rcases hg with rfl | rfl | rfl
      · decide
      · exact absurd rfl hne
      · decide)

/-- Claim C6: let the candidate hold non-empty strings as secret and immutable fields, pass the
generic validation, and let `Apply` accept the canonical attributes.  If the default field is
omitted, validation succeeds and the field is the literal default `<specific default value>`
in the result; if a non-empty string is supplied, validation succeeds and the field keeps
that value. -/
theorem validateConfig_default_field (X : External) (r r2 r3 : Ranges) (cfg : Config)
    (s i : String) (hV : X.Validate cfg none = none)
    (hA : ∀ a, cfg.ValidateUnknownAttrs X r.coerce.keys configFields configDefaultFields = .ok a →
      ∃ c, cfg.Apply X a = .ok c)
    (hs : cfg.UnknownAttrs X "skeleton-secret-field" = some (.str s)) (hs' : s ≠ "")
    (hi : cfg.UnknownAttrs X "skeleton-immutable-field" = some (.str i)) (hi' : i ≠ "") :
    (cfg.UnknownAttrs X "skeleton-default-field" = none →
      ∃ res, validateConfig X r cfg none = .ok res ∧
        environProvider.Validate X r r2 r3 cfg none = .ok res.Config ∧
        res.attrs "skeleton-default-field" = some (.str "<specific default value>") ∧
        res.Config.AllAttrs "skeleton-default-field" = some (.str "<specific default value>")) ∧
    (∀ d, d ≠ "" → cfg.UnknownAttrs X "skeleton-default-field" = some (.str d) →
      ∃ res, validateConfig X r cfg none = .ok res ∧
        environProvider.Validate X r r2 r3 cfg none = .ok res.Config ∧
        res.attrs "skeleton-default-field" = some (.str d) ∧
        res.Config.AllAttrs "skeleton-default-field" = some (.str d)) := by
  have key : ∀ d, d ≠ "" → canonicalAttrs X cfg "skeleton-default-field" = some (.str d) →
      ∃ res, validateConfig X r cfg none = .ok res ∧
        environProvider.Validate X r r2 r3 cfg none = .ok res.Config ∧
        res.attrs "skeleton-default-field" = some (.str d) ∧
        res.Config.AllAttrs "skeleton-default-field" = some (.str d) := by
    intro d hd hdv
    have hfields : ∀ f, f ∈ configFieldNames →
        ∃ s, canonicalAttrs X cfg f = some (.str s) ∧ s ≠ "" := by
      intro f hf
      rw [mem_configFieldNames] at hf
      rcases hf with rfl | rfl | rfl
      · exact ⟨s, canonicalAttrs_of_some X cfg _ _ hs, hs'⟩
      · exact ⟨i, canonicalAttrs_of_some X cfg _ _ hi, hi'⟩
      · exact ⟨d, hdv, hd⟩
    have hS := validateUnknownAttrs_succeeds X cfg r.coerce
      (fun f hf => (hfields f hf).imp fun s hs => hs.1)
    have hacc : Accepts X cfg none :=
      ⟨hV, hfields, by simp, (apply_ok_iff X cfg _).1 (hA _ hS)⟩
    have hres := validateConfig_succeeds X r cfg none hacc
    refine ⟨validResult X cfg, hres, ?_, hdv, mergeAttrs_of_some _ _ _ _ hdv⟩
    simp [environProvider.Validate, hres]
  refine ⟨fun hnone => key _ (by decide) (canonicalAttrs_default_of_none X cfg hnone), ?_⟩
  intro d hd hdv
  exact key d hd (canonicalAttrs_of_some X cfg _ _ hdv)

/-- Witness of claim C6, tests `skeleton-default-field is inserted if missing` and
`skeleton-default-field is untouched if present`. -/
theorem validateConfig_default_field_witness :
    (∃ res, validateConfig X0 r0 validCfg none = .ok res ∧
      environProvider.Validate X0 r0 r0 r0 validCfg none = .ok res.Config ∧
      res.attrs "skeleton-default-field" = some (.str "<specific default value>") ∧
      res.Config.AllAttrs "skeleton-default-field" = some (.str "<specific default value>")) ∧
    (∃ res, validateConfig X0 r0 userDefaultCfg none = .ok res ∧
      environProvider.Validate X0 r0 r0 r0 userDefaultCfg none = .ok res.Config ∧
      res.attrs "skeleton-default-field" = some (.str "<user value>") ∧
      res.Config.AllAttrs "skeleton-default-field" = some (.str "<user value>")) :=
  ⟨(validateConfig_default_field X0 r0 r0 r0 validCfg "seekrit" "static" rfl
      (fun _ _ => (apply_ok_iff X0 _ _).2 rfl) (by decide) (by decide) (by decide)
      (by decide)).1 (by decide),
    (validateConfig_default_field X0 r0 r0 r0 userDefaultCfg "seekrit" "static" rfl
      (fun _ _ => (apply_ok_iff X0 _ _).2 rfl) (by decide) (by decide) (by decide)
      (by decide)).2 "<user value>" (by decide) (by decide)⟩

/-- Claim C7, counterexample.  The config that omits both the secret and the immutable field:
validation without baseline names the field that the merge engine visits first, the secret
field in one traversal order and the immutable field in another, so in each run the other
omitted field is not the one named.  The config that omits the secret field and holds a number
as immutable field: when the immutable field is visited first the error is the type mismatch
of the immutable field, not the missing secret field. -/
theorem missing_field_not_always_named :
    noRequiredCfg.UnknownAttrs X0 "skeleton-secret-field" = none ∧
      noRequiredCfg.UnknownAttrs X0 "skeleton-immutable-field" = none ∧
      validateConfig X0 r0 noRequiredCfg none
        = .error "skeleton-secret-field: expected string, got nothing" ∧
      validateConfig X0 r0 noRequiredCfg none
        ≠ .error "skeleton-immutable-field: expected string, got nothing" ∧
      validateConfig X0 r1 noRequiredCfg none
        = .error "skeleton-immutable-field: expected string, got nothing" ∧
      validateConfig X0 r1 noRequiredCfg none
        ≠ .error "skeleton-secret-field: expected string, got nothing" ∧
      numberImmutableCfg.UnknownAttrs X0 "skeleton-secret-field" = none ∧
      validateConfig X0 r1 numberImmutableCfg none
        = .error "skeleton-immutable-field: expected string, got int(12345)" := by
  have h0 : validateConfig X0 r0 noRequiredCfg none
      = .error "skeleton-secret-field: expected string, got nothing" :=
    errorOf_eq_some _ _ (by decide)
  have h1 : validateConfig X0 r1 noRequiredCfg none
      = .error "skeleton-immutable-field: expected string, got nothing" :=
    errorOf_eq_some _ _ (by decide)
  refine ⟨by decide, by decide, h0, ?_, h1, ?_, by decide, errorOf_eq_some _ _ (by decide)⟩
  · rw [h0]
    intro hc
    exact absurd (Except.error.inj hc) (by decide)
  · rw [h1]
    intro hc
    exact absurd (Except.error.inj hc) (by decide)

/-- Claim C7, amended: a candidate that omits the secret or the immutable field never
validates, neither through `validateConfig` without baseline nor through
`environProvider.Validate`, so no default or generated value is substituted.  When the generic
validation passes, the error is the schema error of a declared field that does not resolve
to a string; it is `<field>: expected string, got nothing` for the omitted field (behind
`invalid config: ` through `environProvider.Validate`) when every other declared field resolves
to a string. -/
theorem validateConfig_missing_required_field (X : External) (r1 r2 r3 : Ranges) (cfg : Config)
    (old : Option Config) (f : String)
    (hf : f = "skeleton-secret-field" ∨ f = "skeleton-immutable-field")
    (hmiss : cfg.UnknownAttrs X f = none) :
    (∃ e, validateConfig X r1 cfg none = .error e) ∧
    (∃ e, environProvider.Validate X r1 r2 r3 cfg old = .error e) ∧
    (X.Validate cfg none = none →
      (∃ g, g ∈ configFieldNames ∧
        (∀ s, schema.fieldValue configDefaultFields (cfg.UnknownAttrs X) g ≠ some (.str s)) ∧
        validateConfig X r1 cfg none
          = .error (g ++ ": expected string, got " ++
              schema.gotDescr (schema.fieldValue configDefaultFields (cfg.UnknownAttrs X) g))) ∧
      ((∀ g, g ∈ configFieldNames → g ≠ f →
          ∃ s, schema.fieldValue configDefaultFields (cfg.UnknownAttrs X) g = some (.str s)) →
        validateConfig X r1 cfg none = .error (f ++ ": expected string, got nothing") ∧
        environProvider.Validate X r1 r2 r3 cfg old
          = .error ("invalid config: " ++ (f ++ ": expected string, got nothing")))) := by
  have hcanon : canonicalAttrs X cfg f = none := canonicalAttrs_required_of_none X cfg f hf hmiss
  have hfmem : f ∈ configFieldNames := by
    rw [mem_configFieldNames]
    rcases hf with rfl | rfl <;> simp
  have hfail : ∃ e, validateConfig X r1 cfg none = .error e := by
    cases h : validateConfig X r1 cfg none with
    | error e => exact ⟨e, rfl⟩
    | ok res =>
      obtain ⟨s, hs, _⟩ := (validateConfig_ok X r1 cfg none res h).1.2.1 f hfmem
      rw [hcanon] at hs
      cases hs
  refine ⟨hfail, ?_, ?_⟩
  · obtain ⟨e, he⟩ := hfail
    exact ⟨_, by simp [environProvider.Validate, he]; rfl⟩
  · intro hV
    have hex : ∃ g, g ∈ configFieldNames ∧ (∀ s, canonicalAttrs X cfg g ≠ some (.str s)) ∧
        validateConfig X r1 cfg none
          = .error (g ++ ": expected string, got " ++ schema.gotDescr (canonicalAttrs X cfg g)) := by
      cases hS : cfg.ValidateUnknownAttrs X r1.coerce.keys configFields configDefaultFields with
      | ok a =>
        obtain ⟨s, hs⟩ := (validateUnknownAttrs_ok X cfg r1.coerce a hS).2 f hfmem
        rw [hcanon] at hs
        cases hs
      | error e =>
        obtain ⟨g, hg, hg', rfl⟩ := validateUnknownAttrs_error X cfg r1.coerce e hS
        refine ⟨g, hg, hg', ?_⟩
        unfold validateConfig
        simp only [Option.map_none', hV, hS]
    obtain ⟨g, hg, hg', hres⟩ := hex
    refine ⟨⟨g, hg, ?_, ?_⟩, ?_⟩
    · rw [← canonicalAttrs_declared X cfg g hg]; exact hg'
    · rw [← canonicalAttrs_declared X cfg g hg]; exact hres
    · intro hothers
      have hgf : g = f := by
        by_contra hne
        obtain ⟨s, hs⟩ := hothers g hg hne
        rw [← canonicalAttrs_declared X cfg g hg] at hs
        exact hg' s hs
      subst hgf
      have hmsg : validateConfig X r1 cfg none
          = .error (g ++ ": expected string, got nothing") := by
        rw [hres, hcanon]
        rcases hf with rfl | rfl <;> rfl
      refine ⟨hmsg, ?_⟩
      simp [environProvider.Validate, hmsg]

/-- Witness of the amended claim C7, test `skeleton-secret-field is required`. -/
theorem validateConfig_missing_required_field_witness :
    validateConfig X0 r0 noSecretCfg none
        = .error ("skeleton-secret-field" ++ ": expected string, got nothing") ∧
      environProvider.Validate X0 r0 r0 r0 noSecretCfg none
        = .error ("invalid config: "
            ++ ("skeleton-secret-field" ++ ": expected string, got nothing")) :=
  (validateConfig_missing_required_field X0 r0 r0 r0 noSecretCfg none "skeleton-secret-field"
    (Or.inl rfl) (by decide)).2.2 rfl |>.2 (by
      intro g hg hne
      rw [mem_configFieldNames] at hg
      rcases hg with rfl | rfl | rfl
      · exact absurd rfl hne
      · exact ⟨"static", by decide⟩
      · exact ⟨"<specific default value>", by decide⟩)

/-- Claim C8: whenever validation succeeds, with or without a baseline, through
`validateConfig` or through `environProvider.Validate`, the returned config holds at every key
that `configFields` does not declare exactly what the candidate holds there (a value of any
type, or nothing), and so do the returned attrs for the provider specific keys. -/
theorem validation_preserves_undeclared_fields (X : External) (r r1 r2 r3 : Ranges)
    (cfg : Config) :
    (∀ old res, validateConfig X r cfg old = .ok res → ∀ k, k ∉ configFieldNames →
      res.Config.AllAttrs k = cfg.AllAttrs k ∧ res.attrs k = cfg.UnknownAttrs X k) ∧
    (∀ old res, environProvider.Validate X r1 r2 r3 cfg old = .ok res →
      ∀ k, k ∉ configFieldNames → res.AllAttrs k = cfg.AllAttrs k) := by
  constructor
  · intro old res h k hk
    obtain ⟨_, rfl⟩ := validateConfig_ok X r cfg old res h
    exact validResult_undeclared X cfg k hk
  · intro old res h k hk
    rw [Validate_ok X r1 r2 r3 cfg old res h]
    exact (validResult_undeclared X cfg k hk).1

/-- Witness of claim C8, test `unknown field is not touched`: the number `12345` at the key
`unknown-field` is in the validated config, and a key the candidate does not hold is not
added. -/
theorem validation_preserves_undeclared_fields_witness :
    (validResult X0 unknownFieldCfg).Config.AllAttrs "unknown-field" = some (.num 12345) ∧
      (validResult X0 unknownFieldCfg).attrs "unknown-field" = some (.num 12345) ∧
      (validResult X0 unknownFieldCfg).Config.AllAttrs "other-field" = none :=
  have h : validateConfig X0 r0 unknownFieldCfg none = .ok (validResult X0 unknownFieldCfg) :=
    validateConfig_succeeds X0 r0 unknownFieldCfg none
      (accepts_X0 unknownFieldCfg none "seekrit" "static" "<specific default value>"
        (by decide) (by decide) (by decide) (by decide) (by decide) (by decide) (by simp))
  have h1 := (validation_preserves_undeclared_fields X0 r0 r0 r0 r0 unknownFieldCfg).1 none _ h
    "unknown-field" (by decide)
  have h2 := (validation_preserves_undeclared_fields X0 r0 r0 r0 r0 unknownFieldCfg).1 none _ h
    "other-field" (by decide)
  ⟨h1.1.trans (by decide), h1.2.trans (by decide), h2.1.trans (by decide)⟩

/-- Claim C9: idempotence.  Let validation of `c` succeed with result `c'`.  Validating the
config of `c'` against `c'` itself as baseline succeeds and returns `c'` again, canonical
mapping and config unchanged, and `environProvider.Validate(c, c)` succeeds; in both cases
provided the external generic check accepts the pair it is given. -/
theorem validateConfig_idempotent (X : External) (r ra r1 r2 r3 : Ranges) (c : Config)
    (c' : environConfig) (h : validateConfig X r c none = .ok c') :
    (X.Validate c'.Config (some c'.Config) = none →
      validateConfig X ra c'.Config (some c') = .ok c') ∧
    (X.Validate c (some c'.Config) = none →
      environProvider.Validate X r1 r2 r3 c (some c) = .ok c'.Config) := by
  obtain ⟨hacc, rfl⟩ := validateConfig_ok X r c none c' h
  obtain ⟨hV, hfields, _, hrej⟩ := hacc
  have hstr : ∀ f, f ∈ configFieldNames → ∃ s, canonicalAttrs X c f = some (.str s) :=
    fun f hf => (hfields f hf).imp fun s hs => hs.1
  have hcanon := canonicalAttrs_validResult X c hstr
  have hfix : validResult X (validResult X c).Config = validResult X c := by
    have hm : mergeAttrs (validResult X c).Config.AllAttrs (canonicalAttrs X c)
        = mergeAttrs c.AllAttrs (canonicalAttrs X c) := mergeAttrs_mergeAttrs _ _
    unfold validResult at hm ⊢
    simp only [validResult] at hcanon
    rw [hcanon, hm]
  constructor
  · intro hself
    have hacc' : Accepts X (validResult X c).Config (some (validResult X c)) := by
      refine ⟨hself, ?_, ?_, ?_⟩
      · rw [hcanon]; exact hfields
      · intro o ho
        cases ho
        rw [hcanon]
        rfl
      · rw [hcanon]
        have hm : mergeAttrs (validResult X c).Config.AllAttrs (canonicalAttrs X c)
            = mergeAttrs c.AllAttrs (canonicalAttrs X c) := mergeAttrs_mergeAttrs _ _
        rw [hm]
        exact hrej
    rw [validateConfig_succeeds X ra _ _ hacc', hfix]
  · intro hchg
    have hacc1 : Accepts X c none := ⟨hV, hfields, by simp, hrej⟩
    have hacc3 : Accepts X c (some (validResult X c)) := by
      refine ⟨hchg, hfields, ?_, hrej⟩
      intro o ho
      cases ho
      rfl
    simp [environProvider.Validate, validateConfig_succeeds X r1 c none hacc1,
      validateConfig_succeeds X r2 c none hacc1,
      validateConfig_succeeds X r3 c _ hacc3]

/-- Witness of claim C9, test `no change, no error`: the validated test config validates
against itself and comes back unchanged. -/
theorem validateConfig_idempotent_witness :
    validateConfig X0 r0 (validResult X0 validCfg).Config (some (validResult X0 validCfg))
        = .ok (validResult X0 validCfg) ∧
      environProvider.Validate X0 r0 r0 r0 validCfg (some validCfg)
        = .ok (validResult X0 validCfg).Config :=
  ⟨(validateConfig_idempotent X0 r0 r0 r0 r0 r0 validCfg _ (validateConfig_validCfg r0)).1 rfl,
    (validateConfig_idempotent X0 r0 r0 r0 r0 r0 validCfg _ (validateConfig_validCfg r0)).2 rfl⟩

/-- Claim C10: let `cfg` and `old` each validate on its own, hold the same immutable field, and
let the external generic check accept `cfg` against the validated `old`.  Then
`environProvider.Validate(cfg, old)` succeeds and returns the config of `cfg` validated on its
own, which holds every provider specific value of `cfg`, however the secret field, the default
field and undeclared fields differ between the two. -/
theorem Validate_accepts_mutable_changes (X : External) (r1 r2 r3 : Ranges) (cfg old : Config)
    (ce oe : environConfig) (hc : validateConfig X r1 cfg none = .ok ce)
    (ho : validateConfig X r2 old none = .ok oe)
    (hagree : cfg.UnknownAttrs X "skeleton-immutable-field"
      = old.UnknownAttrs X "skeleton-immutable-field")
    (hchg : X.Validate cfg (some oe.Config) = none) :
    environProvider.Validate X r1 r2 r3 cfg (some old) = .ok ce.Config ∧
      ∀ k v, cfg.UnknownAttrs X k = some v → ce.Config.AllAttrs k = some v := by
  obtain ⟨hacc, rfl⟩ := validateConfig_ok X r1 cfg none ce hc
  obtain ⟨_, rfl⟩ := validateConfig_ok X r2 old none oe ho
  have himm : canonicalAttrs X old "skeleton-immutable-field"
      = canonicalAttrs X cfg "skeleton-immutable-field" := by
    rw [canonicalAttrs_declared X old _ (by decide), canonicalAttrs_declared X cfg _ (by decide)]
    unfold schema.fieldValue
    rw [hagree]
  have hacc3 : Accepts X cfg (some (validResult X old)) := by
    refine ⟨hchg, hacc.2.1, ?_, hacc.2.2.2⟩
    intro o ho'
    cases ho'
    exact himm
  constructor
  · simp [environProvider.Validate, hc, ho, validateConfig_succeeds X r3 cfg _ hacc3]
  · intro k v hk
    exact mergeAttrs_of_some _ _ _ _ (canonicalAttrs_of_some X cfg k v hk)

/-- Witness of claim C10, tests `can change skeleton-secret-field`, `can change
skeleton-default-field` and `can insert unknown field`: the candidate differs from the valid
baseline in the secret field, the default field and one undeclared key, and is returned. -/
theorem Validate_accepts_mutable_changes_witness :
    environProvider.Validate X0 r0 r0 r0 changedCfg (some validCfg)
        = .ok (validResult X0 changedCfg).Config ∧
      (validResult X0 changedCfg).Config.AllAttrs "skeleton-secret-field" = some (.str "okkult") ∧
      (validResult X0 changedCfg).Config.AllAttrs "skeleton-default-field"
        = some (.str "different") ∧
      (validResult X0 changedCfg).Config.AllAttrs "unknown" = some (.str "ignoti") :=
  have h := Validate_accepts_mutable_changes X0 r0 r0 r0 changedCfg validCfg _ _
    (validateConfig_succeeds X0 r0 changedCfg none
      (accepts_X0 changedCfg none "okkult" "static" "different"
        (by decide) (by decide) (by decide) (by decide) (by decide) (by decide) (by simp)))
    (validateConfig_validCfg r0) (by decide) rfl
  ⟨h.1, h.2 _ _ (by decide), h.2 _ _ (by decide), h.2 _ _ (by decide)⟩

/-! ## Lemmas on SecretAttrs -/

theorem secretAttrsLoop_configSecretFields (a : Attrs) (s : String)
    (h : a "skeleton-secret-field" = some (.str s)) :
    secretAttrsLoop a configSecretFields (fun _ => none)
      = .ok (fun k => if k = "skeleton-secret-field" then some s else none) := by
  simp [secretAttrsLoop, configSecretFields, h]

theorem SecretAttrs_of_accepts (X : External) (r : Ranges) (cfg : Config)
    (h : Accepts X cfg none) :
    ∃ s, canonicalAttrs X cfg "skeleton-secret-field" = some (.str s) ∧ s ≠ "" ∧
      environProvider.SecretAttrs X r cfg
        = .ok (fun k => if k = "skeleton-secret-field" then some s else none) := by
  obtain ⟨s, hs, hne⟩ := h.2.1 "skeleton-secret-field" (by decide)
  refine ⟨s, hs, hne, ?_⟩
  unfold environProvider.SecretAttrs
  rw [validateConfig_succeeds X r cfg none h]
  exact secretAttrsLoop_configSecretFields _ s hs

theorem SecretAttrs_error (X : External) (r : Ranges) (cfg : Config) (e : String)
    (h : environProvider.SecretAttrs X r cfg = .error e) :
    validateConfig X r cfg none = .error e := by
  cases hv : validateConfig X r cfg none with
  | error e0 =>
    unfold environProvider.SecretAttrs at h
    simp only [hv, Except.error.injEq] at h
    rw [h]
  | ok res =>
    obtain ⟨hacc, _⟩ := validateConfig_ok X r cfg none res hv
    obtain ⟨s, _, _, hs⟩ := SecretAttrs_of_accepts X r cfg hacc
    rw [hs] at h
    cases h

/-! ## Claims on SecretAttrs and on the returned config -/

/-- Claim C11: when `validateConfig(cfg, nil)` succeeds, `SecretAttrs(cfg)` succeeds and its map
has exactly the keys of `configSecretFields`, each with the canonical string value of the field;
no other key is in it.  When `validateConfig` fails, `SecretAttrs` returns that error and no
map. -/
theorem SecretAttrs_exactly_secret_fields (X : External) (r r' : Ranges) (cfg : Config) :
    (∀ res, validateConfig X r cfg none = .ok res →
      ∃ m, environProvider.SecretAttrs X r' cfg = .ok m ∧
        (∀ k, (m k).isSome ↔ k ∈ configSecretFields) ∧
        (∀ k, k ∈ configSecretFields → ∃ s, res.attrs k = some (.str s) ∧ m k = some s)) ∧
    (∀ e, validateConfig X r cfg none = .error e →
      environProvider.SecretAttrs X r cfg = .error e) := by
  constructor
  · intro res h
    obtain ⟨hacc, rfl⟩ := validateConfig_ok X r cfg none res h
    obtain ⟨s, hs, _, hm⟩ := SecretAttrs_of_accepts X r' cfg hacc
    refine ⟨_, hm, ?_, ?_⟩
    · intro k
      by_cases hk : k = "skeleton-secret-field" <;> simp [configSecretFields, hk]
    · intro k hk
      simp only [configSecretFields, List.mem_singleton] at hk
      subst hk
      exact ⟨s, hs, by simp⟩
  · intro e h
    simp [environProvider.SecretAttrs, h]

/-- Witness of claim C11 on the valid test config: the map holds `seekrit` at the secret
field and nothing at the immutable field, the default field, an unknown key or a generic key. -/
theorem SecretAttrs_exactly_secret_fields_witness :
    ∃ m, environProvider.SecretAttrs X0 r0 validCfg = .ok m ∧
      (∀ k, (m k).isSome ↔ k ∈ configSecretFields) ∧
      (∀ k, k ∈ configSecretFields →
        ∃ s, (validResult X0 validCfg).attrs k = some (.str s) ∧ m k = some s) :=
  (SecretAttrs_exactly_secret_fields X0 r0 r0 validCfg).1 _ (validateConfig_validCfg r0)

/-- Claim C12: when the secret field of the config is present with a value that is not a string
(a number or a boolean), `SecretAttrs` fails, with the error of `validateConfig`, and returns no
map.  When the generic validation passes and every other declared field resolves to a string,
the error is the type mismatch of the secret field. -/
theorem SecretAttrs_rejects_non_string_secret (X : External) (r : Ranges) (cfg : Config)
    (v : Value) (hv : cfg.UnknownAttrs X "skeleton-secret-field" = some v)
    (hns : ∀ s, v ≠ .str s) :
    (∃ e, environProvider.SecretAttrs X r cfg = .error e ∧
      validateConfig X r cfg none = .error e) ∧
    (X.Validate cfg none = none →
      (∀ g, g ∈ configFieldNames → g ≠ "skeleton-secret-field" →
        ∃ s, schema.fieldValue configDefaultFields (cfg.UnknownAttrs X) g = some (.str s)) →
      environProvider.SecretAttrs X r cfg
        = .error ("skeleton-secret-field" ++ ": expected string, got "
            ++ schema.gotDescr (some v))) := by
  have hcanon : canonicalAttrs X cfg "skeleton-secret-field" = some v :=
    canonicalAttrs_of_some X cfg _ v hv
  have hfail : ∃ e, validateConfig X r cfg none = .error e := by
    cases h : validateConfig X r cfg none with
    | error e => exact ⟨e, rfl⟩
    | ok res =>
      obtain ⟨s, hs, _⟩ := (validateConfig_ok X r cfg none res h).1.2.1
        "skeleton-secret-field" (by decide)
      rw [hcanon] at hs
      exact absurd (Option.some.inj hs) (hns s)
  constructor
  · obtain ⟨e, he⟩ := hfail
    exact ⟨e, by simp [environProvider.SecretAttrs, he], he⟩
  · intro hV hothers
    cases hS : cfg.ValidateUnknownAttrs X r.coerce.keys configFields configDefaultFields with
    | ok a =>
      obtain ⟨s, hs⟩ := (validateUnknownAttrs_ok X cfg r.coerce a hS).2
        "skeleton-secret-field" (by decide)
      rw [hcanon] at hs
      exact absurd (Option.some.inj hs) (hns s)
    | error e =>
      obtain ⟨g, hg, hg', rfl⟩ := validateUnknownAttrs_error X cfg r.coerce e hS
      have hgf : g = "skeleton-secret-field" := by
        by_contra hne
        obtain ⟨s, hs⟩ := hothers g hg hne
        rw [← canonicalAttrs_declared X cfg g hg] at hs
        exact hg' s hs
      subst hgf
      unfold environProvider.SecretAttrs validateConfig
      simp only [Option.map_none', hV, hS, hcanon]

/-- Witness of claim C12: the valid attributes with the number `12345` as secret field. -/
theorem SecretAttrs_rejects_non_string_secret_witness :
    environProvider.SecretAttrs X0 r0 numberSecretCfg
      = .error ("skeleton-secret-field" ++ ": expected string, got "
          ++ schema.gotDescr (some (.num 12345))) :=
  (SecretAttrs_rejects_non_string_secret X0 r0 numberSecretCfg (.num 12345) (by decide)
    (by intro s hs; cases hs)).2 rfl (by
      intro g hg hne
      rw [mem_configFieldNames] at hg
      rcases hg with rfl | rfl | rfl
      · exact absurd rfl hne
      · exact ⟨"static", by decide⟩
      · exact ⟨"<specific default value>", by decide⟩)

/-- Claim C14: the environConfig returned by a successful `validateConfig` is self-consistent:
at every key of its canonical attrs, in particular at every declared field (a defaulted one
included), the returned generic config holds the same value as the attrs. -/
theorem validateConfig_result_self_consistent (X : External) (r : Ranges) (cfg : Config)
    (old : Option environConfig) (res : environConfig)
    (h : validateConfig X r cfg old = .ok res) :
    (∀ k v, res.attrs k = some v → res.Config.AllAttrs k = some v) ∧
    (∀ f, f ∈ configFieldNames →
      res.Config.AllAttrs f = res.attrs f ∧ (res.attrs f).isSome) := by
  obtain ⟨hacc, rfl⟩ := validateConfig_ok X r cfg old res h
  have h1 : ∀ k v, (validResult X cfg).attrs k = some v →
      (validResult X cfg).Config.AllAttrs k = some v :=
    fun k v hk => mergeAttrs_of_some _ _ _ _ hk
  refine ⟨h1, ?_⟩
  intro f hf
  obtain ⟨s, hs, _⟩ := hacc.2.1 f hf
  have hs' : (validResult X cfg).attrs f = some (.str s) := hs
  rw [h1 f _ hs', hs']
  exact ⟨rfl, rfl⟩

/-- Witness of claim C14 on the valid test config, which omits the default field: the returned
generic config holds the literal default. -/
theorem validateConfig_result_self_consistent_witness :
    (validResult X0 validCfg).attrs "skeleton-default-field"
        = some (.str "<specific default value>") ∧
      (validResult X0 validCfg).Config.AllAttrs "skeleton-default-field"
        = some (.str "<specific default value>") :=
  ⟨by decide,
    (validateConfig_result_self_consistent X0 r0 validCfg none _ (validateConfig_validCfg r0)).1
      _ _ (by decide)⟩

/-- Claim C15: the baseline only decides success or failure.  When
`environProvider.Validate(cfg, old)` succeeds with a non-nil `old`, then
`environProvider.Validate(cfg, nil)` succeeds with the same config, and so does every other
successful validation of `cfg`, whatever its baseline: the result is built only from `cfg`
and the defaults. -/
theorem Validate_result_independent_of_baseline (X : External) (r1 r2 r3 q1 q2 q3 : Ranges)
    (cfg old : Config) (res : Config)
    (h : environProvider.Validate X r1 r2 r3 cfg (some old) = .ok res) :
    environProvider.Validate X q1 q2 q3 cfg none = .ok res ∧
      res.AllAttrs = mergeAttrs cfg.AllAttrs (canonicalAttrs X cfg) ∧
      ∀ old' res', environProvider.Validate X q1 q2 q3 cfg old' = .ok res' → res' = res := by
  have hres := Validate_ok X r1 r2 r3 cfg _ res h
  subst hres
  refine ⟨?_, rfl, fun old' res' h' => Validate_ok X q1 q2 q3 cfg old' res' h'⟩
  have hacc : Accepts X cfg none := by
    cases h1 : validateConfig X r1 cfg none with
    | error e => simp [environProvider.Validate, h1] at h
    | ok c => exact (validateConfig_ok X r1 cfg none c h1).1
  simp [environProvider.Validate, validateConfig_succeeds X q1 cfg none hacc]

/-- Witness of claim C15: the candidate of the change tests against the valid baseline, which
has another secret field and another default field and lacks the unknown key; the result is
the one of the validation without baseline. -/
theorem Validate_result_independent_of_baseline_witness :
    environProvider.Validate X0 r0 r0 r0 changedCfg none = .ok (validResult X0 changedCfg).Config ∧
      (validResult X0 changedCfg).Config.AllAttrs "skeleton-secret-field" = some (.str "okkult") :=
  have hc : validateConfig X0 r0 changedCfg none = .ok (validResult X0 changedCfg) :=
    validateConfig_succeeds X0 r0 changedCfg none
      (accepts_X0 changedCfg none "okkult" "static" "different"
        (by decide) (by decide) (by decide) (by decide) (by decide) (by decide) (by simp))
  have h3 : validateConfig X0 r0 changedCfg (some (validResult X0 validCfg))
      = .ok (validResult X0 changedCfg) :=
    validateConfig_succeeds X0 r0 changedCfg _
      (accepts_X0 changedCfg _ "okkult" "static" "different"
        (by decide) (by decide) (by decide) (by decide) (by decide) (by decide)
        (by intro o ho; cases ho; decide))
  have h : environProvider.Validate X0 r0 r0 r0 changedCfg (some validCfg)
      = .ok (validResult X0 changedCfg).Config := by
    simp [environProvider.Validate, hc, validateConfig_validCfg, h3]
  ⟨(Validate_result_independent_of_baseline X0 r0 r0 r0 r0 r0 r0 changedCfg validCfg _ h).1,
    by decide⟩

/-! ## Errors of validateConfig and the traversal order -/

/-- Where an error of `validateConfig` comes from: the generic validation, the schema check of
a declared field, the empty value loop, the immutable field loop, or `Apply`. -/
theorem validateConfig_error_cases (X : External) (r : Ranges) (cfg : Config)
    (old : Option environConfig) (e : String) (h : validateConfig X r cfg old = .error e) :
    X.Validate cfg (old.map (fun o => o.Config)) = some e ∨
    (∃ f, f ∈ configFieldNames ∧ (∀ s, canonicalAttrs X cfg f ≠ some (.str s)) ∧
      e = f ++ ": expected string, got " ++ schema.gotDescr (canonicalAttrs X cfg f)) ∨
    (∃ f, f ∈ configFieldNames ∧ canonicalAttrs X cfg f = some (.str "") ∧
      e = f ++ ": must not be empty") ∨
    (∃ o, old = some o ∧
      o.attrs "skeleton-immutable-field" ≠ canonicalAttrs X cfg "skeleton-immutable-field" ∧
      e = "skeleton-immutable-field" ++ ": cannot change from "
        ++ fmtV (o.attrs "skeleton-immutable-field") ++ " to "
        ++ fmtV (canonicalAttrs X cfg "skeleton-immutable-field")) ∨
    X.rejects (mergeAttrs cfg.AllAttrs (canonicalAttrs X cfg)) = some e := by
  unfold validateConfig at h
  cases hV : X.Validate cfg (old.map (fun o => o.Config)) with
  | some e0 =>
    simp only [hV, Except.error.injEq] at h
    exact Or.inl (by rw [h])
  | none =>
    simp only [hV] at h
    right
    cases hS : cfg.ValidateUnknownAttrs X r.coerce.keys configFields configDefaultFields with
    | error e0 =>
      simp only [hS, Except.error.injEq] at h
      subst h
      exact Or.inl (validateUnknownAttrs_error X cfg r.coerce e0 hS)
    | ok a =>
      simp only [hS] at h
      obtain ⟨rfl, _⟩ := validateUnknownAttrs_ok X cfg r.coerce a hS
      right
      cases hE : emptyFieldLoop (canonicalAttrs X cfg) r.check.keys with
      | some e0 =>
        simp only [hE, Except.error.injEq] at h
        subst h
        obtain ⟨k, hk, hk', he⟩ := emptyFieldLoop_eq_some _ _ _ hE
        exact Or.inl ⟨k, (r.check.mem_keys k).1 hk, hk', he⟩
      | none =>
        simp only [hE] at h
        right
        have happly : ∀ e1, cfg.Apply X (canonicalAttrs X cfg) = .error e1 →
            X.rejects (mergeAttrs cfg.AllAttrs (canonicalAttrs X cfg)) = some e1 := by
          intro e1 h1
          unfold Config.Apply config.New at h1
          cases hr : X.rejects (mergeAttrs cfg.AllAttrs (canonicalAttrs X cfg)) with
          | none => simp [hr] at h1
          | some e2 =>
            simp only [hr, Except.error.injEq] at h1
            rw [h1]
        cases old with
        | none =>
          right
          simp only at h
          cases hA : cfg.Apply X (canonicalAttrs X cfg) with
          | ok c => simp [hA] at h
          | error e1 =>
            simp only [hA, Except.error.injEq] at h
            subst h
            exact happly e1 hA
        | some o =>
          simp only [immutableLoop_configImmutableFields] at h
          by_cases himm : o.attrs "skeleton-immutable-field"
              = canonicalAttrs X cfg "skeleton-immutable-field"
          · right
            simp only [himm, if_true] at h
            cases hA : cfg.Apply X (canonicalAttrs X cfg) with
            | ok c => simp [hA] at h
            | error e1 =>
              simp only [hA, Except.error.injEq] at h
              subst h
              exact happly e1 hA
          · left
            simp only [himm, if_false, Except.error.injEq] at h
            exact ⟨o, rfl, himm, h.symm⟩

/-- Claim C16, counterexample: the config whose secret field and immutable field are both the
empty string.  One traversal order of `configFields` names the secret field in the error,
another names the immutable field: two runs on the same input give different errors. -/
theorem validateConfig_error_depends_on_traversal :
    validateConfig X0 r0 bothEmptyCfg none
        = .error "skeleton-secret-field: must not be empty" ∧
      validateConfig X0 r1 bothEmptyCfg none
        = .error "skeleton-immutable-field: must not be empty" ∧
      validateConfig X0 r0 bothEmptyCfg none ≠ validateConfig X0 r1 bothEmptyCfg none := by
  have h0 : validateConfig X0 r0 bothEmptyCfg none
      = .error "skeleton-secret-field: must not be empty" := errorOf_eq_some _ _ (by decide)
  have h1 : validateConfig X0 r1 bothEmptyCfg none
      = .error "skeleton-immutable-field: must not be empty" := errorOf_eq_some _ _ (by decide)
  refine ⟨h0, h1, ?_⟩
  rw [h0, h1]
  intro hc
  exact absurd (Except.error.inj hc) (by decide)

/-- Claim C16, amended: two runs of `validateConfig` on the same inputs, whatever orders their
traversals of `configFields` take, both succeed with the same canonical mapping and config or
both fail.  They fail with the same error when at most one declared field fails the schema
check and at most one declared field is the empty string. -/
theorem validateConfig_deterministic_outcome (X : External) (r r' : Ranges) (cfg : Config)
    (old : Option environConfig) :
    (∀ res, validateConfig X r cfg old = .ok res → validateConfig X r' cfg old = .ok res) ∧
    (∀ e, validateConfig X r cfg old = .error e →
      ∃ e', validateConfig X r' cfg old = .error e') ∧
    ((∀ f g, f ∈ configFieldNames → g ∈ configFieldNames →
        (∀ s, schema.fieldValue configDefaultFields (cfg.UnknownAttrs X) f ≠ some (.str s)) →
        (∀ s, schema.fieldValue configDefaultFields (cfg.UnknownAttrs X) g ≠ some (.str s)) →
        f = g) →
      (∀ f g, f ∈ configFieldNames → g ∈ configFieldNames →
        schema.fieldValue configDefaultFields (cfg.UnknownAttrs X) f = some (.str "") →
        schema.fieldValue configDefaultFields (cfg.UnknownAttrs X) g = some (.str "") →
        f = g) →
      validateConfig X r cfg old = validateConfig X r' cfg old) := by
  have hok : ∀ (p q : Ranges) res, validateConfig X p cfg old = .ok res →
      validateConfig X q cfg old = .ok res := by
    intro p q res h
    obtain ⟨hacc, rfl⟩ := validateConfig_ok X p cfg old res h
    exact validateConfig_succeeds X q cfg old hacc
  refine ⟨hok r r', ?_, ?_⟩
  · intro e h
    cases h' : validateConfig X r' cfg old with
    | error e' => exact ⟨e', rfl⟩
    | ok res =>
      rw [hok r' r res h'] at h
      cases h
  · intro huniq hempty
    have hS : cfg.ValidateUnknownAttrs X r.coerce.keys configFields configDefaultFields
        = cfg.ValidateUnknownAttrs X r'.coerce.keys configFields configDefaultFields := by
      cases h1 : cfg.ValidateUnknownAttrs X r.coerce.keys configFields configDefaultFields with
      | ok a =>
        obtain ⟨rfl, hstr⟩ := validateUnknownAttrs_ok X cfg r.coerce a h1
        exact (validateUnknownAttrs_succeeds X cfg r'.coerce hstr).symm
      | error e =>
        cases h2 : cfg.ValidateUnknownAttrs X r'.coerce.keys configFields
            configDefaultFields with
        | ok a =>
          obtain ⟨_, hstr⟩ := validateUnknownAttrs_ok X cfg r'.coerce a h2
          rw [validateUnknownAttrs_succeeds X cfg r.coerce hstr] at h1
          cases h1
        | error e' =>
          obtain ⟨f, hf, hf', rfl⟩ := validateUnknownAttrs_error X cfg r.coerce e h1
          obtain ⟨g, hg, hg', rfl⟩ := validateUnknownAttrs_error X cfg r'.coerce e' h2
          rw [canonicalAttrs_declared X cfg f hf] at hf'
          rw [canonicalAttrs_declared X cfg g hg] at hg'
          rw [huniq f g hf hg hf' hg']
    have hE : emptyFieldLoop (canonicalAttrs X cfg) r.check.keys
        = emptyFieldLoop (canonicalAttrs X cfg) r'.check.keys := by
      cases h1 : emptyFieldLoop (canonicalAttrs X cfg) r.check.keys with
      | none =>
        symm
        rw [emptyFieldLoop_eq_none] at h1 ⊢
        intro k hk
        exact h1 k ((r.check.mem_keys k).2 ((r'.check.mem_keys k).1 hk))
      | some e =>
        cases h2 : emptyFieldLoop (canonicalAttrs X cfg) r'.check.keys with
        | none =>
          obtain ⟨k, hk, hk', _⟩ := emptyFieldLoop_eq_some _ _ _ h1
          exact absurd hk' ((emptyFieldLoop_eq_none _ _).1 h2 k
            ((r'.check.mem_keys k).2 ((r.check.mem_keys k).1 hk)))
        | some e' =>
          obtain ⟨f, hf, hf', rfl⟩ := emptyFieldLoop_eq_some _ _ _ h1
          obtain ⟨g, hg, hg', rfl⟩ := emptyFieldLoop_eq_some _ _ _ h2
          have hf1 := (r.check.mem_keys f).1 hf
          have hg1 := (r'.check.mem_keys g).1 hg
          rw [canonicalAttrs_declared X cfg f hf1] at hf'
          rw [canonicalAttrs_declared X cfg g hg1] at hg'
          rw [hempty f g hf1 hg1 hf' hg']
    unfold validateConfig
    simp only [hS]
    cases hV : X.Validate cfg (old.map (fun o => o.Config)) with
    | some e => rfl
    | none =>
      cases h2 : cfg.ValidateUnknownAttrs X r'.coerce.keys configFields configDefaultFields with
      | error e => rfl
      | ok a =>
        obtain ⟨rfl, _⟩ := validateUnknownAttrs_ok X cfg r'.coerce a h2
        simp only [hE]

/-- Witness of the amended claim C16: the config with the empty immutable field has one empty
declared field, and both traversal orders give the same error. -/
theorem validateConfig_deterministic_outcome_witness :
    validateConfig X0 r0 emptyImmutableCfg none = validateConfig X0 r1 emptyImmutableCfg none :=
  (validateConfig_deterministic_outcome X0 r0 r1 emptyImmutableCfg none).2.2
    (by
      intro f g hf hg hfn hgn
      rw [mem_configFieldNames] at hf
      rcases hf with rfl | rfl | rfl
      · exact absurd (by decide) (hfn "seekrit")
      · exact absurd (by decide) (hfn "")
      · exact absurd (by decide) (hfn "<specific default value>"))
    (by
      intro f g hf hg hf' hg'
      rw [mem_configFieldNames] at hf hg
      rcases hf with rfl | rfl | rfl <;> rcases hg with rfl | rfl | rfl <;>
        first
          | rfl
          | exact absurd hf' (by decide)
          | exact absurd hg' (by decide))

/-- Claim C18: `SecretAttrs` never returns the error of its own loop.  Whenever `validateConfig`
succeeds every field of `configSecretFields` is in the attrs with a string value, so the loop
returns a map; every error of `SecretAttrs` is the error of `validateConfig`, which comes from
the generic validation, from the schema check or the empty value check of a declared field, or
from `Apply`; and a secret that is not a string makes `validateConfig` itself fail. -/
theorem SecretAttrs_loop_never_fails (X : External) (r : Ranges) (cfg : Config) :
    (∀ res, validateConfig X r cfg none = .ok res →
      (∀ f, f ∈ configSecretFields → ∃ s, res.attrs f = some (.str s)) ∧
      ∃ m, secretAttrsLoop res.attrs configSecretFields (fun _ => none) = .ok m) ∧
    (∀ e, environProvider.SecretAttrs X r cfg = .error e →
      validateConfig X r cfg none = .error e ∧
      (X.Validate cfg none = some e ∨
        (∃ f, f ∈ configFieldNames ∧
          e = f ++ ": expected string, got " ++ schema.gotDescr (canonicalAttrs X cfg f)) ∨
        (∃ f, f ∈ configFieldNames ∧ e = f ++ ": must not be empty") ∨
        X.rejects (mergeAttrs cfg.AllAttrs (canonicalAttrs X cfg)) = some e)) ∧
    (∀ v, cfg.UnknownAttrs X "skeleton-secret-field" = some v → (∀ s, v ≠ .str s) →
      ∃ e, validateConfig X r cfg none = .error e) := by
  refine ⟨?_, ?_, ?_⟩
  · intro res h
    obtain ⟨hacc, rfl⟩ := validateConfig_ok X r cfg none res h
    obtain ⟨s, hs, _⟩ := hacc.2.1 "skeleton-secret-field" (by decide)
    constructor
    · intro f hf
      simp only [configSecretFields, List.mem_singleton] at hf
      subst hf
      exact ⟨s, hs⟩
    · exact ⟨_, secretAttrsLoop_configSecretFields _ s hs⟩
  · intro e h
    have hv := SecretAttrs_error X r cfg e h
    refine ⟨hv, ?_⟩
    rcases validateConfig_error_cases X r cfg none e hv with h1 | h2 | h3 | h4 | h5
    · exact Or.inl h1
    · obtain ⟨f, hf, _, he⟩ := h2
      exact Or.inr (Or.inl ⟨f, hf, he⟩)
    · obtain ⟨f, hf, _, he⟩ := h3
      exact Or.inr (Or.inr (Or.inl ⟨f, hf, he⟩))
    · obtain ⟨o, ho, _⟩ := h4
      cases ho
    · exact Or.inr (Or.inr (Or.inr h5))
  · intro v hv hns
    cases h : validateConfig X r cfg none with
    | error e => exact ⟨e, rfl⟩
    | ok res =>
      obtain ⟨s, hs, _⟩ := (validateConfig_ok X r cfg none res h).1.2.1
        "skeleton-secret-field" (by decide)
      rw [canonicalAttrs_of_some X cfg _ v hv] at hs
      exact absurd (Option.some.inj hs) (hns s)

/-- Witness of claim C18: a boolean as secret field is reported by the schema check inside
`validateConfig`, and `SecretAttrs` returns that error. -/
theorem SecretAttrs_loop_never_fails_witness :
    environProvider.SecretAttrs X0 r0 boolSecretCfg
        = .error "skeleton-secret-field: expected string, got bool(true)" ∧
      validateConfig X0 r0 boolSecretCfg none
        = .error "skeleton-secret-field: expected string, got bool(true)" :=
  have h : environProvider.SecretAttrs X0 r0 boolSecretCfg
      = .error "skeleton-secret-field: expected string, got bool(true)" :=
    errorOf_eq_some _ _ (by decide)
  ⟨h, ((SecretAttrs_loop_never_fails X0 r0 boolSecretCfg).2.1 _ h).1⟩

/-- Claim C19: on every environConfig returned by `validateConfig` the accessors `secretField`,
`immutableField` and `defaultField` are total: the key each reads is in the attrs with a string
value, so the type assertion does not panic, and the string returned is the canonical value of
the field and is not empty. -/
theorem accessors_total_on_validated_config (X : External) (r : Ranges) (cfg : Config)
    (old : Option environConfig) (res : environConfig)
    (h : validateConfig X r cfg old = .ok res) :
    (∃ s, res.secretField = some s ∧ s ≠ "" ∧
      res.attrs "skeleton-secret-field" = some (.str s)) ∧
    (∃ s, res.immutableField = some s ∧ s ≠ "" ∧
      res.attrs "skeleton-immutable-field" = some (.str s)) ∧
    (∃ s, res.defaultField = some s ∧ s ≠ "" ∧
      res.attrs "skeleton-default-field" = some (.str s)) := by
  obtain ⟨hacc, rfl⟩ := validateConfig_ok X r cfg old res h
  obtain ⟨s1, h1, n1⟩ := hacc.2.1 "skeleton-secret-field" (by decide)
  obtain ⟨s2, h2, n2⟩ := hacc.2.1 "skeleton-immutable-field" (by decide)
  obtain ⟨s3, h3, n3⟩ := hacc.2.1 "skeleton-default-field" (by decide)
  have a1 : (validResult X cfg).attrs "skeleton-secret-field" = some (.str s1) := h1
  have a2 : (validResult X cfg).attrs "skeleton-immutable-field" = some (.str s2) := h2
  have a3 : (validResult X cfg).attrs "skeleton-default-field" = some (.str s3) := h3
  refine ⟨⟨s1, ?_, n1, a1⟩, ⟨s2, ?_, n2, a2⟩, ⟨s3, ?_, n3, a3⟩⟩
  · simp [environConfig.secretField, a1]
  · simp [environConfig.immutableField, a2]
  · simp [environConfig.defaultField, a3]

/-- Witness of claim C19 on the valid test config: the three accessors return `seekrit`,
`static` and the literal default. -/
theorem accessors_total_on_validated_config_witness :
    (validResult X0 validCfg).secretField = some "seekrit" ∧
      (validResult X0 validCfg).immutableField = some "static" ∧
      (validResult X0 validCfg).defaultField = some "<specific default value>" ∧
      ((∃ s, (validResult X0 validCfg).secretField = some s ∧ s ≠ "" ∧
        (validResult X0 validCfg).attrs "skeleton-secret-field" = some (.str s)) ∧
      (∃ s, (validResult X0 validCfg).immutableField = some s ∧ s ≠ "" ∧
        (validResult X0 validCfg).attrs "skeleton-immutable-field" = some (.str s)) ∧
      (∃ s, (validResult X0 validCfg).defaultField = some s ∧ s ≠ "" ∧
        (validResult X0 validCfg).attrs "skeleton-default-field" = some (.str s))) :=
  ⟨by decide, by decide, by decide,
    accessors_total_on_validated_config X0 r0 validCfg none _ (validateConfig_validCfg r0)⟩

/-! ## Lemmas on prepareConfig -/

theorem hexDigit_injective :
    ∀ a, a < 16 → ∀ b, b < 16 → hexDigit a = hexDigit b → a = b := by decide

theorem hexDigit_mem : ∀ d, d < 16 → hexDigit d ∈ "0123456789abcdef".toList := by decide

theorem hexChars_length (l : List Nat) : (hexChars l).length = 2 * l.length := by
  induction l with
  | nil => rfl
  | cons b bs ih => simp only [hexChars, List.length_cons, ih]; omega

theorem hexChars_mem (l : List Nat) (c : Char) (h : c ∈ hexChars l) :
    c ∈ "0123456789abcdef".toList := by
  induction l with
  | nil => simp [hexChars] at h
  | cons b bs ih =>
    simp only [hexChars, List.mem_cons] at h
    rcases h with rfl | rfl | h
    · exact hexDigit_mem _ (Nat.mod_lt _ (by decide))
    · exact hexDigit_mem _ (Nat.mod_lt _ (by decide))
    · exact ih h

theorem hexChars_injective :
    ∀ (l l' : List Nat), (∀ b, b ∈ l → b < 256) → (∀ b, b ∈ l' → b < 256) →
      hexChars l = hexChars l' → l = l' := by
  intro l
  induction l with
  | nil =>
    intro l' _ _ h
    cases l' with
    | nil => rfl
    | cons b bs => simp [hexChars] at h
  | cons a as ih =>
    intro l' hl hl' h
    cases l' with
    | nil => simp [hexChars] at h
    | cons b bs =>
      simp only [hexChars, List.cons.injEq] at h
      obtain ⟨h1, h2, h3⟩ := h
      have ha := hl a (List.mem_cons_self _ _)
      have hb := hl' b (List.mem_cons_self _ _)
      have e1 := hexDigit_injective _ (Nat.mod_lt _ (by decide)) _ (Nat.mod_lt _ (by decide)) h1
      have e2 := hexDigit_injective _ (Nat.mod_lt _ (by decide)) _ (Nat.mod_lt _ (by decide)) h2
      have hab : a = b := by omega
      have hrest := ih bs (fun x hx => hl x (List.mem_cons_of_mem _ hx))
        (fun x hx => hl' x (List.mem_cons_of_mem _ hx)) h3
      rw [hab, hrest]

theorem fmtX_length (l : List Nat) : (fmtX l).length = 2 * l.length := by
  unfold fmtX
  rw [String.length_mk, hexChars_length]

theorem UUID.eq_of_raw (u u' : UUID) (h : u.raw = u'.raw) : u = u' := by
  cases u
  cases u'
  simp only [UUID.mk.injEq]
  exact h

theorem fmtX_injective (u u' : UUID) (h : fmtX u.Raw = fmtX u'.Raw) : u = u' := by
  apply UUID.eq_of_raw
  unfold fmtX at h
  exact hexChars_injective _ _ u.byte u'.byte (congrArg String.data h)

theorem mergeAttrs_unknownAttrs (X : External) (cfg : Config) :
    mergeAttrs cfg.AllAttrs (cfg.UnknownAttrs X) = cfg.AllAttrs := by
  funext k
  simp only [mergeAttrs, Config.UnknownAttrs, Config.AllAttrs]
  by_cases hg : X.isGeneric k = true
  · simp [hg]
  · simp only [hg, Bool.false_eq_true, if_false]
    cases cfg.attrs k <;> rfl

theorem unknownAttrs_eq_some (X : External) (cfg : Config) (k : String) (v : Value)
    (h : cfg.UnknownAttrs X k = some v) : cfg.AllAttrs k = some v := by
  unfold Config.UnknownAttrs at h
  by_cases hg : X.isGeneric k = true
  · simp [hg] at h
  · simpa [hg] using h

theorem canonicalAttrs_immutable (X : External) (cfg : Config) :
    canonicalAttrs X cfg "skeleton-immutable-field"
      = cfg.UnknownAttrs X "skeleton-immutable-field" := by
  rw [canonicalAttrs_declared X cfg _ (by decide)]
  unfold schema.fieldValue
  cases cfg.UnknownAttrs X "skeleton-immutable-field" with
  | some v => rfl
  | none => simp [configDefaultFields, List.lookup]

theorem prepareConfig_of_present (X : External) (src : UUIDSource) (n : Nat) (cfg : Config)
    (v : Value) (h : cfg.UnknownAttrs X "skeleton-immutable-field" = some v) :
    prepareConfig X src n cfg = (cfg.Apply X (cfg.UnknownAttrs X), n) := by
  simp [prepareConfig, h]

theorem prepareConfig_of_absent (X : External) (src : UUIDSource) (n : Nat) (cfg : Config)
    (u : UUID) (h : cfg.UnknownAttrs X "skeleton-immutable-field" = none) (hu : src n = some u) :
    prepareConfig X src n cfg
      = (cfg.Apply X (setAttr (cfg.UnknownAttrs X) "skeleton-immutable-field"
          (.str (fmtX u.Raw))), n + 1) := by
  simp [prepareConfig, h, utils.NewUUID, hu]

theorem Open_ok (X : External) (r : Ranges) (cfg : Config) (env : environ)
    (h : environProvider.Open X r cfg = .ok env) :
    Accepts X cfg none ∧ env.ecfg = some (validResult X cfg) := by
  unfold environProvider.Open environ.SetConfig at h
  cases hv : validateConfig X r cfg none with
  | error e => simp [hv] at h
  | ok res =>
    obtain ⟨hacc, rfl⟩ := validateConfig_ok X r cfg none res hv
    simp only [hv, Except.ok.injEq] at h
    exact ⟨hacc, by rw [← h]⟩

theorem Open_error (X : External) (r : Ranges) (cfg : Config) (e : String)
    (h : validateConfig X r cfg none = .error e) :
    environProvider.Open X r cfg = .error e := by
  simp [environProvider.Open, environ.SetConfig, h]

/-- The empty value loop in closed form, without baseline: when the generic validation passes and
every declared field resolves to a string, an empty declared field is reported, and it is the
field named when it is the only empty one. -/
theorem validateConfig_empty_aux (X : External) (r : Ranges) (cfg : Config)
    (hV : X.Validate cfg none = none)
    (hstr : ∀ f, f ∈ configFieldNames → ∃ s, canonicalAttrs X cfg f = some (.str s)) :
    (emptyFieldLoop (canonicalAttrs X cfg) r.check.keys = none ∨
      ∃ f, f ∈ configFieldNames ∧ canonicalAttrs X cfg f = some (.str "") ∧
        validateConfig X r cfg none = .error (f ++ ": must not be empty")) ∧
    (∀ f, f ∈ configFieldNames → canonicalAttrs X cfg f = some (.str "") →
      (∀ g, g ∈ configFieldNames → g ≠ f → canonicalAttrs X cfg g ≠ some (.str "")) →
      validateConfig X r cfg none = .error (f ++ ": must not be empty")) := by
  have hS := validateUnknownAttrs_succeeds X cfg r.coerce hstr
  have hex : emptyFieldLoop (canonicalAttrs X cfg) r.check.keys = none ∨
      ∃ f, f ∈ configFieldNames ∧ canonicalAttrs X cfg f = some (.str "") ∧
        validateConfig X r cfg none = .error (f ++ ": must not be empty") := by
    cases hl : emptyFieldLoop (canonicalAttrs X cfg) r.check.keys with
    | none => exact Or.inl rfl
    | some e =>
      right
      obtain ⟨k, hk, hk', rfl⟩ := emptyFieldLoop_eq_some _ _ _ hl
      refine ⟨k, (r.check.mem_keys k).1 hk, hk', ?_⟩
      unfold validateConfig
      simp only [Option.map_none', hV, hS, hl]
  refine ⟨hex, ?_⟩
  intro f hf hfe honly
  rcases hex with hnone | ⟨g, hg, hg', hres⟩
  · exact absurd hfe ((emptyFieldLoop_eq_none _ _).1 hnone f ((r.check.mem_keys f).2 hf))
  · by_cases hgf : g = f
    · rw [← hgf]; exact hres
    · exact absurd hg' (honly g hg hgf)

/-! ## Claims on prepareConfig -/

theorem Open_succeeds (X : External) (r : Ranges) (cfg : Config) (h : Accepts X cfg none) :
    environProvider.Open X r cfg
      = .ok { name := cfg.Name, ecfg := some (validResult X cfg) } := by
  simp [environProvider.Open, environ.SetConfig, validateConfig_succeeds X r cfg none h]

theorem unknownAttrs_of_not_generic (X : External) (c : Config) (k : String)
    (h : X.isGeneric k = false) : c.UnknownAttrs X k = c.AllAttrs k := by
  simp [Config.UnknownAttrs, Config.AllAttrs, h]

/-- Claim C13: let the immutable field be unset, let `utils.NewUUID()` give the identifier `u`,
and let `Apply` accept the resulting attributes.  Then `prepareConfig` returns the config in
which the immutable field is the lowercase hexadecimal text of the sixteen raw bytes of `u` and
every other attribute is unchanged.  An environment that `Prepare` returns holds that token, and
`Prepare` does return one, after one call of `NewUUID`, whenever the prepared config meets the
conditions of `validateConfig`.  The token has 32 characters, so it is not empty, every
character is a lowercase hexadecimal digit, and another identifier gives another token. -/
theorem prepareConfig_generates_token (X : External) (src : UUIDSource) (n : Nat)
    (cfg : Config) (u : UUID)
    (hunset : cfg.UnknownAttrs X "skeleton-immutable-field" = none) (hu : src n = some u)
    (hA : X.rejects (mergeAttrs cfg.AllAttrs
      (setAttr (cfg.UnknownAttrs X) "skeleton-immutable-field" (.str (fmtX u.Raw)))) = none) :
    (∃ cfg', prepareConfig X src n cfg = (.ok cfg', n + 1) ∧
      cfg'.AllAttrs "skeleton-immutable-field" = some (.str (fmtX u.Raw)) ∧
      (∀ k, k ≠ "skeleton-immutable-field" → cfg'.AllAttrs k = cfg.AllAttrs k) ∧
      (∀ r env n', environProvider.Prepare X src n r cfg = (.ok env, n') →
        ∃ e, env.ecfg = some e ∧
          e.attrs "skeleton-immutable-field" = some (.str (fmtX u.Raw))) ∧
      (∀ r, Accepts X cfg' none →
        environProvider.Prepare X src n r cfg
          = (Except.ok (environ.mk cfg'.Name (some (validResult X cfg'))), n + 1) ∧
        (validResult X cfg').attrs "skeleton-immutable-field" = some (.str (fmtX u.Raw)) ∧
        (validResult X cfg').immutableField = some (fmtX u.Raw)) ∧
      (∀ r e, validateConfig X r cfg' none = .ok e →
        environProvider.Prepare X src n r cfg
          = (Except.ok (environ.mk cfg'.Name (some e)), n + 1) ∧
        e.attrs "skeleton-immutable-field" = some (.str (fmtX u.Raw)))) ∧
    (fmtX u.Raw).length = 32 ∧ fmtX u.Raw ≠ "" ∧
    (∀ c, c ∈ (fmtX u.Raw).toList → c ∈ "0123456789abcdef".toList) ∧
    (∀ u', u' ≠ u → fmtX u'.Raw ≠ fmtX u.Raw) := by
  have hlen : (fmtX u.Raw).length = 32 := by
    rw [fmtX_length, UUID.Raw, u.len]
  have hprep := prepareConfig_of_absent X src n cfg u hunset hu
  have happly : cfg.Apply X (setAttr (cfg.UnknownAttrs X) "skeleton-immutable-field"
      (.str (fmtX u.Raw)))
      = .ok ⟨mergeAttrs cfg.AllAttrs
          (setAttr (cfg.UnknownAttrs X) "skeleton-immutable-field" (.str (fmtX u.Raw)))⟩ := by
    simp [Config.Apply, config.New, hA]
  rw [happly] at hprep
  have himm : (mergeAttrs cfg.AllAttrs (setAttr (cfg.UnknownAttrs X)
      "skeleton-immutable-field" (.str (fmtX u.Raw)))) "skeleton-immutable-field"
      = some (.str (fmtX u.Raw)) :=
    mergeAttrs_of_some _ _ _ _ (by simp [setAttr])
  have hoth : ∀ k, k ≠ "skeleton-immutable-field" →
      (mergeAttrs cfg.AllAttrs (setAttr (cfg.UnknownAttrs X) "skeleton-immutable-field"
        (.str (fmtX u.Raw)))) k = cfg.AllAttrs k := by
    intro k hk
    have h1 := congrFun (mergeAttrs_unknownAttrs X cfg) k
    simp only [mergeAttrs, Config.AllAttrs, setAttr, hk, if_false] at h1 ⊢
    exact h1
  obtain ⟨c, hc⟩ : ∃ c : Config, c = ⟨mergeAttrs cfg.AllAttrs
      (setAttr (cfg.UnknownAttrs X) "skeleton-immutable-field" (.str (fmtX u.Raw)))⟩ :=
    ⟨_, rfl⟩
  rw [← hc] at hprep
  have himmc : c.AllAttrs "skeleton-immutable-field" = some (.str (fmtX u.Raw)) := by
    rw [hc]; exact himm
  have hothc : ∀ k, k ≠ "skeleton-immutable-field" → c.AllAttrs k = cfg.AllAttrs k := by
    rw [hc]; exact hoth
  have htoken : Accepts X c none →
      (validResult X c).attrs "skeleton-immutable-field" = some (.str (fmtX u.Raw)) := by
    intro hacc
    obtain ⟨s, hs, _⟩ := hacc.2.1 "skeleton-immutable-field" (by decide)
    have hs1 := hs
    rw [canonicalAttrs_immutable] at hs1
    have hs2 := unknownAttrs_eq_some X _ _ _ hs1
    have heq : some (Value.str s) = some (.str (fmtX u.Raw)) := hs2.symm.trans himmc
    exact hs.trans heq
  have hsucc : ∀ r, Accepts X c none →
      environProvider.Prepare X src n r cfg
        = (Except.ok (environ.mk c.Name (some (validResult X c))), n + 1) := by
    intro r hacc
    unfold environProvider.Prepare
    rw [hprep]
    simp only [Open_succeeds X r _ hacc]
  refine ⟨⟨c, hprep, himmc, hothc, ?_, ?_, ?_⟩, hlen, ?_, ?_, ?_⟩
  · intro r env n' hP
    unfold environProvider.Prepare at hP
    rw [hprep] at hP
    simp only [Prod.mk.injEq] at hP
    obtain ⟨hacc, hecfg⟩ := Open_ok X r _ env hP.1
    exact ⟨_, hecfg, htoken hacc⟩
  · intro r hacc
    have ht := htoken hacc
    refine ⟨hsucc r hacc, ht, ?_⟩
    simp [environConfig.immutableField, ht]
  · intro r e he
    obtain ⟨hacc, rfl⟩ := validateConfig_ok X r _ none e he
    exact ⟨hsucc r hacc, htoken hacc⟩
  · intro h0
    rw [h0] at hlen
    exact absurd hlen (by decide)
  · intro c hc
    exact hexChars_mem u.Raw c hc
  · intro u' hne h
    exact hne (fmtX_injective u' u h)

/-- Witness of claim C13: the valid attributes without the immutable field.  With the
identifier `u0` the token is `000102030405060708090a0b0c0d0eff`; `Prepare` returns an
environment that holds it, and a second `Prepare`, which draws the identifier `u1`, returns an
environment that holds another token. -/
theorem prepareConfig_generates_token_witness :
    fmtX u0.Raw = "000102030405060708090a0b0c0d0eff" ∧
      fmtX u1.Raw ≠ fmtX u0.Raw ∧
      (∃ cfg', prepareConfig X0 src0 0 noImmutableCfg = (.ok cfg', 1) ∧
        cfg'.AllAttrs "skeleton-immutable-field" = some (.str (fmtX u0.Raw)) ∧
        cfg'.AllAttrs "skeleton-secret-field"
          = noImmutableCfg.AllAttrs "skeleton-secret-field") ∧
      (∃ env e, environProvider.Prepare X0 src0 0 r0 noImmutableCfg = (.ok env, 1) ∧
        env.ecfg = some e ∧
        e.attrs "skeleton-immutable-field" = some (.str (fmtX u0.Raw))) ∧
      (∃ env e, environProvider.Prepare X0 src0 1 r0 noImmutableCfg = (.ok env, 2) ∧
        env.ecfg = some e ∧
        e.attrs "skeleton-immutable-field" = some (.str (fmtX u1.Raw))) := by
  have h := prepareConfig_generates_token X0 src0 0 noImmutableCfg u0 (by decide) rfl rfl
  have h2 := prepareConfig_generates_token X0 src0 1 noImmutableCfg u1 (by decide) rfl rfl
  have hacc : ∀ (c : Config) (tok : String), tok ≠ "" →
      c.AllAttrs "skeleton-immutable-field" = some (.str tok) →
      (∀ k, k ≠ "skeleton-immutable-field" → c.AllAttrs k = noImmutableCfg.AllAttrs k) →
      Accepts X0 c none := by
    intro c tok htok himm hoth
    have hsec : c.UnknownAttrs X0 "skeleton-secret-field" = some (.str "seekrit") := by
      rw [unknownAttrs_of_not_generic X0 c _ (by decide), hoth _ (by decide)]
      decide
    have hdef : c.UnknownAttrs X0 "skeleton-default-field" = none := by
      rw [unknownAttrs_of_not_generic X0 c _ (by decide), hoth _ (by decide)]
      decide
    have himm1 : c.UnknownAttrs X0 "skeleton-immutable-field" = some (.str tok) := by
      rw [unknownAttrs_of_not_generic X0 c _ (by decide), himm]
    exact accepts_X0 c none "seekrit" tok "<specific default value>"
      (canonicalAttrs_of_some X0 c _ _ hsec) (by decide)
      (canonicalAttrs_of_some X0 c _ _ himm1) htok
      (canonicalAttrs_default_of_none X0 c hdef) (by decide) (by simp)
  refine ⟨by decide, h.2.2.2.2 u1 (by intro hc; exact absurd (congrArg UUID.raw hc) (by decide)),
    ?_, ?_, ?_⟩
  · exact h.1.imp fun _ hc => ⟨hc.1, hc.2.1, hc.2.2.1 _ (by decide)⟩
  · obtain ⟨c, _, himm, hoth, _, hP, _⟩ := h.1
    obtain ⟨hres, htok, _⟩ := hP r0 (hacc c _ h.2.2.1 himm hoth)
    exact ⟨_, _, hres, rfl, htok⟩
  · obtain ⟨c, _, himm, hoth, _, hP, _⟩ := h2.1
    obtain ⟨hres, htok, _⟩ := hP r0 (hacc c _ h2.2.2.1 himm hoth)
    exact ⟨_, _, hres, rfl, htok⟩

/-- Claim C17, counterexample: the config whose immutable field is the empty string and which
omits the secret field.  `Prepare` generates no identifier and fails, but with the missing
field error of the secret field, not with the empty field error of the immutable field. -/
theorem Prepare_empty_immutable_other_error :
    emptyImmutableNoSecretCfg.UnknownAttrs X0 "skeleton-immutable-field" = some (.str "") ∧
      (environProvider.Prepare X0 src0 0 r0 emptyImmutableNoSecretCfg).1
        = .error "skeleton-secret-field: expected string, got nothing" ∧
      (environProvider.Prepare X0 src0 0 r0 emptyImmutableNoSecretCfg).2 = 0 ∧
      (environProvider.Prepare X0 src0 0 r0 emptyImmutableNoSecretCfg).1
        ≠ .error "skeleton-immutable-field: must not be empty" := by
  have h : (environProvider.Prepare X0 src0 0 r0 emptyImmutableNoSecretCfg).1
      = .error "skeleton-secret-field: expected string, got nothing" :=
    errorOf_eq_some _ _ (by decide)
  refine ⟨by decide, h, by decide, ?_⟩
  rw [h]
  intro hc
  exact absurd (Except.error.inj hc) (by decide)

/-- Claim C17, amended: `prepareConfig` never overwrites a supplied immutable field.  When the
field is present, whatever its value, no identifier is generated (the count of `NewUUID` calls
is unchanged and the result does not depend on the source) and a returned config has exactly
the attributes of the input.  When the field is present and empty, `Prepare` fails without
generating a token; the error is `skeleton-immutable-field: must not be empty` when `Apply`
and the generic validation accept the config and every other declared field resolves to a
non-empty string. -/
theorem prepareConfig_keeps_supplied_immutable_field (X : External) (src src' : UUIDSource)
    (n : Nat) (r : Ranges) (cfg : Config) (v : Value)
    (hv : cfg.UnknownAttrs X "skeleton-immutable-field" = some v) :
    prepareConfig X src n cfg = (cfg.Apply X (cfg.UnknownAttrs X), n) ∧
    prepareConfig X src' n cfg = prepareConfig X src n cfg ∧
    (∀ cfg', (prepareConfig X src n cfg).1 = .ok cfg' → cfg'.AllAttrs = cfg.AllAttrs) ∧
    (v = .str "" →
      (∃ e, environProvider.Prepare X src n r cfg = (.error e, n)) ∧
      (X.rejects cfg.AllAttrs = none → X.Validate cfg none = none →
        (∀ g, g ∈ configFieldNames → g ≠ "skeleton-immutable-field" →
          ∃ s, schema.fieldValue configDefaultFields (cfg.UnknownAttrs X) g = some (.str s) ∧
            s ≠ "") →
        environProvider.Prepare X src n r cfg
          = (.error ("skeleton-immutable-field" ++ ": must not be empty"), n))) := by
  have hprep := prepareConfig_of_present X src n cfg v hv
  have hprep' := prepareConfig_of_present X src' n cfg v hv
  have hmerge := mergeAttrs_unknownAttrs X cfg
  have hcfg : (⟨cfg.AllAttrs⟩ : Config) = cfg := rfl
  refine ⟨hprep, hprep'.trans hprep.symm, ?_, ?_⟩
  · intro cfg' h
    rw [hprep] at h
    simp only [Config.Apply, config.New, hmerge] at h
    cases hr : X.rejects cfg.AllAttrs with
    | some e => simp [hr] at h
    | none =>
      simp only [hr, Except.ok.injEq] at h
      rw [← h]
      rfl
  · intro hempty
    subst hempty
    have hcanon : canonicalAttrs X cfg "skeleton-immutable-field" = some (.str "") :=
      canonicalAttrs_of_some X cfg _ _ hv
    have hfail : ∃ e, validateConfig X r cfg none = .error e := by
      cases h : validateConfig X r cfg none with
      | error e => exact ⟨e, rfl⟩
      | ok res =>
        obtain ⟨s, hs, hne⟩ := (validateConfig_ok X r cfg none res h).1.2.1
          "skeleton-immutable-field" (by decide)
        rw [hcanon] at hs
        simp only [Option.some.injEq, Value.str.injEq] at hs
        exact absurd hs.symm hne
    have hP : ∀ e, X.rejects cfg.AllAttrs = none → validateConfig X r cfg none = .error e →
        environProvider.Prepare X src n r cfg = (.error e, n) := by
      intro e hr he
      unfold environProvider.Prepare
      rw [hprep]
      simp only [Config.Apply, config.New, hmerge, hr, hcfg]
      rw [Open_error X r cfg e he]
    constructor
    · cases hr : X.rejects cfg.AllAttrs with
      | some e =>
        refine ⟨e, ?_⟩
        unfold environProvider.Prepare
        rw [hprep]
        simp only [Config.Apply, config.New, hmerge, hr]
      | none =>
        obtain ⟨e, he⟩ := hfail
        exact ⟨e, hP e hr he⟩
    · intro hr hV hothers
      apply hP _ hr
      have hex := (validateConfig_empty_aux X r cfg hV ?_).2
      · exact hex "skeleton-immutable-field" (by decide) hcanon (by
          intro g hg hne hge
          obtain ⟨s, hs, hs'⟩ := hothers g hg hne
          rw [canonicalAttrs_declared X cfg g hg, hs] at hge
          simp only [Option.some.injEq, Value.str.injEq] at hge
          exact hs' hge)
      · intro g hg
        by_cases hgi : g = "skeleton-immutable-field"
        · subst hgi
          exact ⟨"", hcanon⟩
        · obtain ⟨s, hs, _⟩ := hothers g hg hgi
          exact ⟨s, by rw [canonicalAttrs_declared X cfg g hg, hs]⟩

/-- Witness of the amended claim C17, the attributes of the test `skeleton-immutable-field
cannot be empty`: `Prepare` makes no call of `NewUUID` and fails with the empty field error. -/
theorem prepareConfig_keeps_supplied_immutable_field_witness :
    prepareConfig X0 src0 0 emptyImmutableCfg
        = (emptyImmutableCfg.Apply X0 (emptyImmutableCfg.UnknownAttrs X0), 0) ∧
      environProvider.Prepare X0 src0 0 r0 emptyImmutableCfg
        = (.error ("skeleton-immutable-field" ++ ": must not be empty"), 0) :=
  have h := prepareConfig_keeps_supplied_immutable_field X0 src0 src0 0 r0 emptyImmutableCfg
    (.str "") (by decide)
  ⟨h.1, (h.2.2.2 rfl).2 rfl rfl (by
    intro g hg hne
    rw [mem_configFieldNames] at hg
    rcases hg with rfl | rfl | rfl
    · exact ⟨"seekrit", by decide, by decide⟩
    · exact absurd rfl hne
    · exact ⟨"<specific default value>", by decide, by decide⟩)⟩

end skeleton
